import Mathlib

/-!
Verification development for the fast-trimesh geometric kernel and 2D
Delaunay triangulator.  The repository ships only the Python test-suite for
its compiled core, so every operation below is modelled from the written
specification (exact rational arithmetic stands in for the spec's reals;
Euclidean distances are represented by their squares so that every
definition is executable and decidable).  The tolerance `eps` is the spec's
default `1e-6`.
-/

namespace FastTrimesh

/-- Modelled from the spec: the default absolute tolerance `ε = 1e-6`
used by every tolerance-sensitive comparison in the kernel. -/
def eps : ℚ := 1 / 1000000

/-- Modelled from the spec: the missing `Point2D` primitive type
(`x, y : real`). -/
@[ext] structure Point2 where
  x : ℚ
  y : ℚ
  deriving DecidableEq, Repr

instance : Add Point2 := ⟨fun p q => ⟨p.x + q.x, p.y + q.y⟩⟩
instance : Sub Point2 := ⟨fun p q => ⟨p.x - q.x, p.y - q.y⟩⟩
instance : HSMul ℚ Point2 Point2 := ⟨fun t p => ⟨t * p.x, t * p.y⟩⟩

@[simp] theorem point2_add_def (p q : Point2) : p + q = ⟨p.x + q.x, p.y + q.y⟩ := rfl

@[simp] theorem point2_sub_def (p q : Point2) : p - q = ⟨p.x - q.x, p.y - q.y⟩ := rfl

@[simp] theorem point2_smul_def (t : ℚ) (p : Point2) : t • p = ⟨t * p.x, t * p.y⟩ := rfl

/-- Modelled from the spec: the missing `Line2D` primitive (ordered pair of
points). -/
@[ext] structure Line2 where
  p1 : Point2
  p2 : Point2
  deriving DecidableEq, Repr

/-- Modelled from the spec: the missing `Triangle2D` primitive (ordered
triple of points). -/
@[ext] structure Triangle2 where
  p1 : Point2
  p2 : Point2
  p3 : Point2
  deriving DecidableEq, Repr

/-- Reversing the endpoint order of a 2D segment. -/
def Line2.rev (l : Line2) : Line2 := ⟨l.p2, l.p1⟩

/-- Rotating the vertex order of a 2D triangle: `(a,b,c) ↦ (b,c,a)`. -/
def Triangle2.rot (t : Triangle2) : Triangle2 := ⟨t.p2, t.p3, t.p1⟩

/-- Reversing the vertex order of a 2D triangle: `(a,b,c) ↦ (c,b,a)`. -/
def Triangle2.rev (t : Triangle2) : Triangle2 := ⟨t.p3, t.p2, t.p1⟩

/-- 2D dot product. -/
def dot2 (u v : Point2) : ℚ := u.x * v.x + u.y * v.y

/-- 2D scalar cross product. -/
def cross2 (u v : Point2) : ℚ := u.x * v.y - u.y * v.x

/-- Modelled from the spec: the square of the missing kernel `distance` on
2D points (the spec's `distance` is the square root of this quantity;
squares are used so arithmetic stays rational and decidable). -/
def distSq2 (p q : Point2) : ℚ := (q.x - p.x) ^ 2 + (q.y - p.y) ^ 2

/-- Modelled from the spec: the missing kernel `area(triangle2d)`,
`|½ · ((p2−p1) × (p3−p1))|` (scalar cross). -/
def area2 (t : Triangle2) : ℚ := |cross2 (t.p2 - t.p1) (t.p3 - t.p1)| / 2

/-- Modelled from the spec: the missing kernel `project(point, line2d)`.
Degenerate segments (squared length below `ε`) give an undefined result;
otherwise the foot of the perpendicular is returned iff the projection
parameter `t = ((p−p1)·(p2−p1)) / ‖p2−p1‖²` lies in the closed `[0,1]`. -/
def project2 (p : Point2) (l : Line2) : Option Point2 :=
  let d := l.p2 - l.p1
  let len2 := dot2 d d
  if len2 < eps then none
  else
    let t := dot2 (p - l.p1) d / len2
    if 0 ≤ t ∧ t ≤ 1 then some (l.p1 + t • d) else none

/-- Modelled from the spec: the missing kernel
`intersection(line2d, line2d)` (segment–segment).  Parallel or collinear
segments (direction cross product within `ε` of zero) give an undefined
result; otherwise the intersection point is returned iff both parameters
lie in `[0,1]`. -/
def intersection2 (l1 l2 : Line2) : Option Point2 :=
  let r := l1.p2 - l1.p1
  let s := l2.p2 - l2.p1
  let d := cross2 r s
  if |d| < eps then none
  else
    let w := l2.p1 - l1.p1
    let t := cross2 w s / d
    let u := cross2 w r / d
    if 0 ≤ t ∧ t ≤ 1 ∧ 0 ≤ u ∧ u ≤ 1 then some (l1.p1 + t • r) else none

/-- Modelled from the spec: the missing kernel
`contains_point(triangle2d, point)` — closed-triangle membership by three
signed-area (cross product) tests with consistent signs, so that boundary
points are inside regardless of winding. -/
def contains_point2 (t : Triangle2) (p : Point2) : Bool :=
  let d1 := cross2 (t.p2 - t.p1) (p - t.p1)
  let d2 := cross2 (t.p3 - t.p2) (p - t.p2)
  let d3 := cross2 (t.p1 - t.p3) (p - t.p3)
  (0 ≤ d1 ∧ 0 ≤ d2 ∧ 0 ≤ d3) ∨ (d1 ≤ 0 ∧ d2 ≤ 0 ∧ d3 ≤ 0)

/-- Modelled from the spec: the missing `Point3D` primitive type
(`x, y, z : real`). -/
@[ext] structure Point3 where
  x : ℚ
  y : ℚ
  z : ℚ
  deriving DecidableEq, Repr

instance : Add Point3 := ⟨fun p q => ⟨p.x + q.x, p.y + q.y, p.z + q.z⟩⟩
instance : Sub Point3 := ⟨fun p q => ⟨p.x - q.x, p.y - q.y, p.z - q.z⟩⟩
instance : HSMul ℚ Point3 Point3 := ⟨fun t p => ⟨t * p.x, t * p.y, t * p.z⟩⟩

@[simp] theorem point3_add_def (p q : Point3) :
    p + q = ⟨p.x + q.x, p.y + q.y, p.z + q.z⟩ := rfl

@[simp] theorem point3_sub_def (p q : Point3) :
    p - q = ⟨p.x - q.x, p.y - q.y, p.z - q.z⟩ := rfl

@[simp] theorem point3_smul_def (t : ℚ) (p : Point3) :
    t • p = ⟨t * p.x, t * p.y, t * p.z⟩ := rfl

/-- Modelled from the spec: the missing `Line3D` primitive. -/
@[ext] structure Line3 where
  p1 : Point3
  p2 : Point3
  deriving DecidableEq, Repr

/-- Modelled from the spec: the missing `Triangle3D` primitive. -/
@[ext] structure Triangle3 where
  p1 : Point3
  p2 : Point3
  p3 : Point3
  deriving DecidableEq, Repr

/-- Reversing the endpoint order of a 3D segment. -/
def Line3.rev (l : Line3) : Line3 := ⟨l.p2, l.p1⟩

/-- Rotating the vertex order of a 3D triangle: `(a,b,c) ↦ (b,c,a)`. -/
def Triangle3.rot (t : Triangle3) : Triangle3 := ⟨t.p2, t.p3, t.p1⟩

/-- Reversing the vertex order of a 3D triangle: `(a,b,c) ↦ (c,b,a)`. -/
def Triangle3.rev (t : Triangle3) : Triangle3 := ⟨t.p3, t.p2, t.p1⟩

/-- 3D dot product. -/
def dot3 (u v : Point3) : ℚ := u.x * v.x + u.y * v.y + u.z * v.z

/-- 3D cross product. -/
def cross3 (u v : Point3) : Point3 :=
  ⟨u.y * v.z - u.z * v.y, u.z * v.x - u.x * v.z, u.x * v.y - u.y * v.x⟩

/-- Modelled from the spec: the square of the missing kernel `distance` on
3D points. -/
def distSq3 (p q : Point3) : ℚ :=
  (q.x - p.x) ^ 2 + (q.y - p.y) ^ 2 + (q.z - p.z) ^ 2

/-- Modelled from the spec: the missing kernel `project(point, line3d)` —
identical to the 2D behavior. -/
def project3 (p : Point3) (l : Line3) : Option Point3 :=
  let d := l.p2 - l.p1
  let len2 := dot3 d d
  if len2 < eps then none
  else
    let t := dot3 (p - l.p1) d / len2
    if 0 ≤ t ∧ t ≤ 1 then some (l.p1 + t • d) else none

/-- Modelled from the spec: the missing kernel
`intersection(line3d, triangle3d)`, Möller–Trumbore style segment–triangle
intersection.  A scalar triple product within `ε` of zero (segment parallel
to the triangle's plane, or degenerate triangle) gives an undefined result;
otherwise the intersection point is returned iff the barycentric parameters
and the segment parameter all lie in range. -/
def intersection3 (l : Line3) (tr : Triangle3) : Option Point3 :=
  let d := l.p2 - l.p1
  let e1 := tr.p2 - tr.p1
  let e2 := tr.p3 - tr.p1
  let h := cross3 d e2
  let a := dot3 e1 h
  if |a| < eps then none
  else
    let s := l.p1 - tr.p1
    let u := dot3 s h / a
    let q := cross3 s e1
    let v := dot3 d q / a
    let t := dot3 e2 q / a
    if 0 ≤ u ∧ u ≤ 1 ∧ 0 ≤ v ∧ u + v ≤ 1 ∧ 0 ≤ t ∧ t ≤ 1 then
      some (l.p1 + t • d)
    else none

/-- Modelled from the spec: the missing kernel
`intersects(line3d, triangle3d)` boolean predicate, the same
Möller–Trumbore computation returning only whether the segment meets the
triangle. -/
def intersects3 (l : Line3) (tr : Triangle3) : Bool :=
  let d := l.p2 - l.p1
  let e1 := tr.p2 - tr.p1
  let e2 := tr.p3 - tr.p1
  let h := cross3 d e2
  let a := dot3 e1 h
  if |a| < eps then false
  else
    let s := l.p1 - tr.p1
    let u := dot3 s h / a
    let q := cross3 s e1
    let v := dot3 d q / a
    let t := dot3 e2 q / a
    0 ≤ u ∧ u ≤ 1 ∧ 0 ≤ v ∧ u + v ≤ 1 ∧ 0 ≤ t ∧ t ≤ 1

/-- Modelled from the spec: the missing kernel
`nearest_points(line3d, line3d)`.  Parallel segments (including collinear
ones, Gram determinant within `ε` of zero) give an undefined result; for
non-parallel segments the two-parameter linear system is solved and, when
the unclamped solution leaves `[0,1]²`, the parameters are clamped and
re-optimized over the boundary. -/
def nearest_points3 (l1 l2 : Line3) : Option (Point3 × Point3) :=
  let d1 := l1.p2 - l1.p1
  let d2 := l2.p2 - l2.p1
  let a := dot3 d1 d1
  let b := dot3 d1 d2
  let c := dot3 d2 d2
  let denom := a * c - b ^ 2
  if |denom| < eps then none
  else
    let r := l1.p1 - l2.p1
    let e := dot3 d1 r
    let f := dot3 d2 r
    let s0 := max 0 (min 1 ((b * f - c * e) / denom))
    let t0 := max 0 (min 1 ((b * s0 + f) / c))
    let s1 := max 0 (min 1 ((b * t0 - e) / a))
    some (l1.p1 + s1 • d1, l2.p1 + t0 • d2)

/-- The (unnormalized) normal `(p2 − p1) × (p3 − p1)` of a 3D triangle's
plane (used by `projectT3`). -/
def triNormal (tr : Triangle3) : Point3 :=
  cross3 (tr.p2 - tr.p1) (tr.p3 - tr.p1)

/-- The orthogonal projection of `p` onto the plane spanned by a triangle
(used by `projectT3`). -/
def planeProj (p : Point3) (tr : Triangle3) : Point3 :=
  p - (dot3 (p - tr.p1) (triNormal tr) / dot3 (triNormal tr) (triNormal tr)) •
    triNormal tr

/-- Signed side test of the in-plane point `q` against the directed edge
`(a, b)`, taken along the plane normal `n` (the barycentric coordinate of
`q` opposite that edge, scaled by the positive squared normal). -/
def sideTest (a b q n : Point3) : ℚ := dot3 (cross3 (b - a) (q - a)) n

/-- Modelled from the spec: the missing kernel
`project(point, triangle3d)` — orthogonal projection of a point onto the
plane of the triangle, defined (returning the projected point) exactly when
the projection lies inside the closed triangle; a degenerate triangle
(squared normal below `ε`) gives an undefined result.  Membership of the
in-plane point is decided by three triple-product sign tests with
consistent signs (the barycentric coordinates scaled by the positive
squared normal), so boundary points are inside regardless of winding. -/
def projectT3 (p : Point3) (tr : Triangle3) : Option Point3 :=
  let n := triNormal tr
  if dot3 n n < eps then none
  else
    let q := planeProj p tr
    let s1 := sideTest tr.p1 tr.p2 q n
    let s2 := sideTest tr.p2 tr.p3 q n
    let s3 := sideTest tr.p3 tr.p1 q n
    if (0 ≤ s1 ∧ 0 ≤ s2 ∧ 0 ≤ s3) ∨ (s1 ≤ 0 ∧ s2 ≤ 0 ∧ s3 ≤ 0) then some q
    else none

/-- First edge `(p1, p2)` of a 2D triangle. -/
def Triangle2.e1 (t : Triangle2) : Line2 := ⟨t.p1, t.p2⟩

/-- Second edge `(p2, p3)` of a 2D triangle. -/
def Triangle2.e2 (t : Triangle2) : Line2 := ⟨t.p2, t.p3⟩

/-- Third edge `(p3, p1)` of a 2D triangle. -/
def Triangle2.e3 (t : Triangle2) : Line2 := ⟨t.p3, t.p1⟩

/-- First edge `(p1, p2)` of a 3D triangle. -/
def Triangle3.e1 (t : Triangle3) : Line3 := ⟨t.p1, t.p2⟩

/-- Second edge `(p2, p3)` of a 3D triangle. -/
def Triangle3.e2 (t : Triangle3) : Line3 := ⟨t.p2, t.p3⟩

/-- Third edge `(p3, p1)` of a 3D triangle. -/
def Triangle3.e3 (t : Triangle3) : Line3 := ⟨t.p3, t.p1⟩

/-- Modelled from the spec: the square of the missing kernel
`min_distance(point2d, line2d)` — the segment is closed; the perpendicular
foot is used when `project` is defined (the endpoint-inclusive behavior the
spec singles out), and otherwise the nearer segment endpoint. -/
def min_distance_sq_pl2 (p : Point2) (l : Line2) : ℚ :=
  match project2 p l with
  | some q => distSq2 p q
  | none => min (distSq2 p l.p1) (distSq2 p l.p2)

/-- Modelled from the spec: the square of the missing kernel
`min_distance(line2d, line2d)` — zero when the closed segments intersect,
and otherwise the least endpoint-to-segment distance. -/
def min_distance_sq_ll2 (l1 l2 : Line2) : ℚ :=
  if (intersection2 l1 l2).isSome then 0
  else
    min (min (min_distance_sq_pl2 l1.p1 l2) (min_distance_sq_pl2 l1.p2 l2))
        (min (min_distance_sq_pl2 l2.p1 l1) (min_distance_sq_pl2 l2.p2 l1))

/-- Modelled from the spec: the square of the missing kernel
`min_distance(point2d, triangle2d)` — the triangle is a closed filled
region: zero when the point is inside, otherwise the least distance to one
of the three closed edges. -/
def min_distance_sq_pt2 (p : Point2) (t : Triangle2) : ℚ :=
  if contains_point2 t p then 0
  else
    min (min (min_distance_sq_pl2 p t.e1) (min_distance_sq_pl2 p t.e2))
        (min_distance_sq_pl2 p t.e3)

/-- Modelled from the spec: the square of the missing kernel
`min_distance(line2d, triangle2d)` — zero when an endpoint of the segment
lies in the closed triangle (crossings are caught by an edge distance of
zero), otherwise the least segment-to-edge distance. -/
def min_distance_sq_lt2 (l : Line2) (t : Triangle2) : ℚ :=
  if contains_point2 t l.p1 ∨ contains_point2 t l.p2 then 0
  else
    min (min (min_distance_sq_ll2 l t.e1) (min_distance_sq_ll2 l t.e2))
        (min_distance_sq_ll2 l t.e3)

/-- Modelled from the spec: the square of the missing kernel
`min_distance(triangle2d, triangle2d)` — the least edge-to-triangle
distance taken in both directions (which also covers one closed triangle
containing the other). -/
def min_distance_sq_tt2 (t1 t2 : Triangle2) : ℚ :=
  min
    (min (min (min_distance_sq_lt2 t1.e1 t2) (min_distance_sq_lt2 t1.e2 t2))
      (min_distance_sq_lt2 t1.e3 t2))
    (min (min (min_distance_sq_lt2 t2.e1 t1) (min_distance_sq_lt2 t2.e2 t1))
      (min_distance_sq_lt2 t2.e3 t1))

/-- Modelled from the spec: the square of the missing kernel
`min_distance(point3d, line3d)` — same behavior as in 2D. -/
def min_distance_sq_pl3 (p : Point3) (l : Line3) : ℚ :=
  match project3 p l with
  | some q => distSq3 p q
  | none => min (distSq3 p l.p1) (distSq3 p l.p2)

/-- Modelled from the spec: the square of the missing kernel
`min_distance(line3d, line3d)` — the distance between the pair returned by
`nearest_points`, falling back to the least endpoint-to-segment distance
for parallel segments. -/
def min_distance_sq_ll3 (l1 l2 : Line3) : ℚ :=
  match nearest_points3 l1 l2 with
  | some (q1, q2) => distSq3 q1 q2
  | none =>
    min (min (min_distance_sq_pl3 l1.p1 l2) (min_distance_sq_pl3 l1.p2 l2))
        (min (min_distance_sq_pl3 l2.p1 l1) (min_distance_sq_pl3 l2.p2 l1))

/-- Modelled from the spec: the square of the missing kernel
`min_distance(point3d, triangle3d)` — the in-triangle plane projection when
it is defined, otherwise the least distance to one of the three closed
edges. -/
def min_distance_sq_pt3 (p : Point3) (t : Triangle3) : ℚ :=
  match projectT3 p t with
  | some q => distSq3 p q
  | none =>
    min (min (min_distance_sq_pl3 p t.e1) (min_distance_sq_pl3 p t.e2))
        (min_distance_sq_pl3 p t.e3)

/-- Modelled from the spec: the square of the missing kernel
`min_distance(line3d, triangle3d)` — zero when the segment intersects the
closed triangle, otherwise the least of the segment-to-edge distances and
the endpoint-to-triangle distances. -/
def min_distance_sq_lt3 (l : Line3) (t : Triangle3) : ℚ :=
  if intersects3 l t then 0
  else
    min
      (min (min (min_distance_sq_ll3 l t.e1) (min_distance_sq_ll3 l t.e2))
        (min_distance_sq_ll3 l t.e3))
      (min (min_distance_sq_pt3 l.p1 t) (min_distance_sq_pt3 l.p2 t))

/-- Modelled from the spec: the square of the missing kernel
`min_distance(triangle3d, triangle3d)` — the least edge-to-triangle
distance taken in both directions. -/
def min_distance_sq_tt3 (t1 t2 : Triangle3) : ℚ :=
  min
    (min (min (min_distance_sq_lt3 t1.e1 t2) (min_distance_sq_lt3 t1.e2 t2))
      (min_distance_sq_lt3 t1.e3 t2))
    (min (min (min_distance_sq_lt3 t2.e1 t1) (min_distance_sq_lt3 t2.e2 t1))
      (min_distance_sq_lt3 t2.e3 t1))

theorem eps_pos : (0 : ℚ) < eps := by norm_num [eps]

/-- Projection onto a 2D segment does not depend on the endpoint order. -/
theorem project2_rev (p : Point2) (l : Line2) : project2 p l.rev = project2 p l := by
  obtain ⟨px, py⟩ := p
  obtain ⟨⟨ax, ay⟩, bx, cy⟩ := l
  simp only [project2, Line2.rev, dot2, point2_sub_def, point2_add_def, point2_smul_def]
  have hlen : (ax - bx) * (ax - bx) + (ay - cy) * (ay - cy)
      = (bx - ax) * (bx - ax) + (cy - ay) * (cy - ay) := by ring
  rw [hlen]
  by_cases hd : (bx - ax) * (bx - ax) + (cy - ay) * (cy - ay) < eps
  · simp [hd]
  · have hne : (bx - ax) * (bx - ax) + (cy - ay) * (cy - ay) ≠ 0 := by
      have := eps_pos; intro h0; rw [h0] at hd; exact hd (by linarith)
    simp only [if_neg hd]
    set L := (bx - ax) * (bx - ax) + (cy - ay) * (cy - ay) with hL
    have ht : ((px - bx) * (ax - bx) + (py - cy) * (ay - cy)) / L
        = 1 - ((px - ax) * (bx - ax) + (py - ay) * (cy - ay)) / L := by
      field_simp
      ring
    rw [ht]
    set t := ((px - ax) * (bx - ax) + (py - ay) * (cy - ay)) / L with hT
    clear_value t
    by_cases hin : 0 ≤ t ∧ t ≤ 1
    · have hin' : 0 ≤ 1 - t ∧ 1 - t ≤ 1 := ⟨by linarith [hin.2], by linarith [hin.1]⟩
      rw [if_pos hin', if_pos hin]
      congr 1
      ext <;> ring
    · have hin' : ¬ (0 ≤ 1 - t ∧ 1 - t ≤ 1) := by
        intro h; exact hin ⟨by linarith [h.2], by linarith [h.1]⟩
      rw [if_neg hin', if_neg hin]

/-- Projection onto a 3D segment does not depend on the endpoint order. -/
theorem project3_rev (p : Point3) (l : Line3) : project3 p l.rev = project3 p l := by
  obtain ⟨px, py, pz⟩ := p
  obtain ⟨⟨ax, ay, az⟩, bx, cy, cz⟩ := l
  simp only [project3, Line3.rev, dot3, point3_sub_def, point3_add_def, point3_smul_def]
  have hlen : (ax - bx) * (ax - bx) + (ay - cy) * (ay - cy) + (az - cz) * (az - cz)
      = (bx - ax) * (bx - ax) + (cy - ay) * (cy - ay) + (cz - az) * (cz - az) := by ring
  rw [hlen]
  by_cases hd : (bx - ax) * (bx - ax) + (cy - ay) * (cy - ay) + (cz - az) * (cz - az) < eps
  · simp [hd]
  · have hne : (bx - ax) * (bx - ax) + (cy - ay) * (cy - ay) + (cz - az) * (cz - az) ≠ 0 := by
      have := eps_pos; intro h0; rw [h0] at hd; exact hd (by linarith)
    simp only [if_neg hd]
    set L := (bx - ax) * (bx - ax) + (cy - ay) * (cy - ay) + (cz - az) * (cz - az) with hL
    have ht : ((px - bx) * (ax - bx) + (py - cy) * (ay - cy) + (pz - cz) * (az - cz)) / L
        = 1 - ((px - ax) * (bx - ax) + (py - ay) * (cy - ay) + (pz - az) * (cz - az)) / L := by
      field_simp
      ring
    rw [ht]
    set t := ((px - ax) * (bx - ax) + (py - ay) * (cy - ay) + (pz - az) * (cz - az)) / L with hT
    clear_value t
    by_cases hin : 0 ≤ t ∧ t ≤ 1
    · have hin' : 0 ≤ 1 - t ∧ 1 - t ≤ 1 := ⟨by linarith [hin.2], by linarith [hin.1]⟩
      rw [if_pos hin', if_pos hin]
      congr 1
      ext <;> ring
    · have hin' : ¬ (0 ≤ 1 - t ∧ 1 - t ≤ 1) := by
        intro h; exact hin ⟨by linarith [h.2], by linarith [h.1]⟩
      rw [if_neg hin', if_neg hin]

/-- 2D segment intersection does not depend on the endpoint order of the
first segment (same defined-ness and same point). -/
theorem intersection2_rev_left (l1 l2 : Line2) :
    intersection2 l1.rev l2 = intersection2 l1 l2 := by
  obtain ⟨⟨a1, a2⟩, b1, b2⟩ := l1
  obtain ⟨⟨c1, c2⟩, d1, d2⟩ := l2
  simp only [intersection2, Line2.rev, cross2, point2_sub_def, point2_add_def, point2_smul_def]
  have hd' : (a1 - b1) * (d2 - c2) - (a2 - b2) * (d1 - c1)
      = -((b1 - a1) * (d2 - c2) - (b2 - a2) * (d1 - c1)) := by ring
  rw [hd', abs_neg]
  by_cases hd : |(b1 - a1) * (d2 - c2) - (b2 - a2) * (d1 - c1)| < eps
  · simp [hd]
  · have hne : (b1 - a1) * (d2 - c2) - (b2 - a2) * (d1 - c1) ≠ 0 := by
      intro h0; rw [h0, abs_zero] at hd; exact hd eps_pos
    simp only [if_neg hd]
    have ht : ((c1 - b1) * (d2 - c2) - (c2 - b2) * (d1 - c1)) /
        -((b1 - a1) * (d2 - c2) - (b2 - a2) * (d1 - c1))
        = 1 - ((c1 - a1) * (d2 - c2) - (c2 - a2) * (d1 - c1)) /
            ((b1 - a1) * (d2 - c2) - (b2 - a2) * (d1 - c1)) := by
      rw [show (c1 - b1) * (d2 - c2) - (c2 - b2) * (d1 - c1)
          = -(((b1 - a1) * (d2 - c2) - (b2 - a2) * (d1 - c1))
              - ((c1 - a1) * (d2 - c2) - (c2 - a2) * (d1 - c1))) from by ring,
        neg_div_neg_eq, sub_div, div_self hne]
    have hu : ((c1 - b1) * (a2 - b2) - (c2 - b2) * (a1 - b1)) /
        -((b1 - a1) * (d2 - c2) - (b2 - a2) * (d1 - c1))
        = ((c1 - a1) * (b2 - a2) - (c2 - a2) * (b1 - a1)) /
            ((b1 - a1) * (d2 - c2) - (b2 - a2) * (d1 - c1)) := by
      rw [show (c1 - b1) * (a2 - b2) - (c2 - b2) * (a1 - b1)
          = -((c1 - a1) * (b2 - a2) - (c2 - a2) * (b1 - a1)) from by ring,
        neg_div_neg_eq]
    rw [ht, hu]
    set t := ((c1 - a1) * (d2 - c2) - (c2 - a2) * (d1 - c1)) /
        ((b1 - a1) * (d2 - c2) - (b2 - a2) * (d1 - c1)) with hT
    set u := ((c1 - a1) * (b2 - a2) - (c2 - a2) * (b1 - a1)) /
        ((b1 - a1) * (d2 - c2) - (b2 - a2) * (d1 - c1)) with hU
    clear_value t u
    by_cases hin : 0 ≤ t ∧ t ≤ 1 ∧ 0 ≤ u ∧ u ≤ 1
    · have hin' : 0 ≤ 1 - t ∧ 1 - t ≤ 1 ∧ 0 ≤ u ∧ u ≤ 1 :=
        ⟨by linarith [hin.2.1], by linarith [hin.1], hin.2.2⟩
      rw [if_pos hin', if_pos hin]
      congr 1
      ext <;> ring
    · have hin' : ¬ (0 ≤ 1 - t ∧ 1 - t ≤ 1 ∧ 0 ≤ u ∧ u ≤ 1) := by
        intro h; exact hin ⟨by linarith [h.2.1], by linarith [h.1], h.2.2⟩
      rw [if_neg hin', if_neg hin]

/-- 2D segment intersection does not depend on the endpoint order of the
second segment. -/
theorem intersection2_rev_right (l1 l2 : Line2) :
    intersection2 l1 l2.rev = intersection2 l1 l2 := by
  obtain ⟨⟨a1, a2⟩, b1, b2⟩ := l1
  obtain ⟨⟨c1, c2⟩, d1, d2⟩ := l2
  simp only [intersection2, Line2.rev, cross2, point2_sub_def, point2_add_def, point2_smul_def]
  have hd' : (b1 - a1) * (c2 - d2) - (b2 - a2) * (c1 - d1)
      = -((b1 - a1) * (d2 - c2) - (b2 - a2) * (d1 - c1)) := by ring
  rw [hd', abs_neg]
  by_cases hd : |(b1 - a1) * (d2 - c2) - (b2 - a2) * (d1 - c1)| < eps
  · simp [hd]
  · have hne : (b1 - a1) * (d2 - c2) - (b2 - a2) * (d1 - c1) ≠ 0 := by
      intro h0; rw [h0, abs_zero] at hd; exact hd eps_pos
    simp only [if_neg hd]
    have ht : ((d1 - a1) * (c2 - d2) - (d2 - a2) * (c1 - d1)) /
        -((b1 - a1) * (d2 - c2) - (b2 - a2) * (d1 - c1))
        = ((c1 - a1) * (d2 - c2) - (c2 - a2) * (d1 - c1)) /
            ((b1 - a1) * (d2 - c2) - (b2 - a2) * (d1 - c1)) := by
      rw [show (d1 - a1) * (c2 - d2) - (d2 - a2) * (c1 - d1)
          = -((c1 - a1) * (d2 - c2) - (c2 - a2) * (d1 - c1)) from by ring,
        neg_div_neg_eq]
    have hu : ((d1 - a1) * (b2 - a2) - (d2 - a2) * (b1 - a1)) /
        -((b1 - a1) * (d2 - c2) - (b2 - a2) * (d1 - c1))
        = 1 - ((c1 - a1) * (b2 - a2) - (c2 - a2) * (b1 - a1)) /
            ((b1 - a1) * (d2 - c2) - (b2 - a2) * (d1 - c1)) := by
      rw [show (d1 - a1) * (b2 - a2) - (d2 - a2) * (b1 - a1)
          = -(((b1 - a1) * (d2 - c2) - (b2 - a2) * (d1 - c1))
              - ((c1 - a1) * (b2 - a2) - (c2 - a2) * (b1 - a1))) from by ring,
        neg_div_neg_eq, sub_div, div_self hne]
    rw [ht, hu]
    set t := ((c1 - a1) * (d2 - c2) - (c2 - a2) * (d1 - c1)) /
        ((b1 - a1) * (d2 - c2) - (b2 - a2) * (d1 - c1)) with hT
    set u := ((c1 - a1) * (b2 - a2) - (c2 - a2) * (b1 - a1)) /
        ((b1 - a1) * (d2 - c2) - (b2 - a2) * (d1 - c1)) with hU
    clear_value t u
    by_cases hin : 0 ≤ t ∧ t ≤ 1 ∧ 0 ≤ u ∧ u ≤ 1
    · have hin' : 0 ≤ t ∧ t ≤ 1 ∧ 0 ≤ 1 - u ∧ 1 - u ≤ 1 :=
        ⟨hin.1, hin.2.1, by linarith [hin.2.2.2], by linarith [hin.2.2.1]⟩
      rw [if_pos hin', if_pos hin]
    · have hin' : ¬ (0 ≤ t ∧ t ≤ 1 ∧ 0 ≤ 1 - u ∧ 1 - u ≤ 1) := by
        intro h; exact hin ⟨h.1, h.2.1, by linarith [h.2.2.2], by linarith [h.2.2.1]⟩
      rw [if_neg hin', if_neg hin]

/-- Closed-triangle membership does not depend on rotating the vertex
order. -/
theorem contains_point2_rot (t : Triangle2) (p : Point2) :
    contains_point2 t.rot p = contains_point2 t p := by
  simp only [contains_point2, Triangle2.rot, decide_eq_decide]
  tauto

/-- Closed-triangle membership does not depend on reversing the vertex
order. -/
theorem contains_point2_rev (t : Triangle2) (p : Point2) :
    contains_point2 t.rev p = contains_point2 t p := by
  obtain ⟨⟨a1, a2⟩, ⟨b1, b2⟩, c1, c2⟩ := t
  obtain ⟨p1, p2⟩ := p
  simp only [contains_point2, Triangle2.rev, cross2, point2_sub_def, decide_eq_decide]
  have h1 : (b1 - c1) * (p2 - c2) - (b2 - c2) * (p1 - c1)
      = -((c1 - b1) * (p2 - b2) - (c2 - b2) * (p1 - b1)) := by ring
  have h2 : (a1 - b1) * (p2 - b2) - (a2 - b2) * (p1 - b1)
      = -((b1 - a1) * (p2 - a2) - (b2 - a2) * (p1 - a1)) := by ring
  have h3 : (c1 - a1) * (p2 - a2) - (c2 - a2) * (p1 - a1)
      = -((a1 - c1) * (p2 - c2) - (a2 - c2) * (p1 - c1)) := by ring
  rw [h1, h2, h3]
  constructor <;> rintro (⟨g1, g2, g3⟩ | ⟨g1, g2, g3⟩) <;>
    first
      | exact Or.inl ⟨by linarith, by linarith, by linarith⟩
      | exact Or.inr ⟨by linarith, by linarith, by linarith⟩

theorem min3_rot (a b c : ℚ) : min (min b c) a = min (min a b) c := by
  rw [min_comm, ← min_assoc]

theorem min3_swap (a b c : ℚ) : min (min b a) c = min (min a b) c := by
  rw [min_comm b a]

@[simp] theorem tri2_rot_e1 (t : Triangle2) : t.rot.e1 = t.e2 := rfl

@[simp] theorem tri2_rot_e2 (t : Triangle2) : t.rot.e2 = t.e3 := rfl

@[simp] theorem tri2_rot_e3 (t : Triangle2) : t.rot.e3 = t.e1 := rfl

@[simp] theorem tri2_rev_e1 (t : Triangle2) : t.rev.e1 = t.e2.rev := rfl

@[simp] theorem tri2_rev_e2 (t : Triangle2) : t.rev.e2 = t.e1.rev := rfl

@[simp] theorem tri2_rev_e3 (t : Triangle2) : t.rev.e3 = t.e3.rev := rfl

theorem min_distance_sq_pl2_rev (p : Point2) (l : Line2) :
    min_distance_sq_pl2 p l.rev = min_distance_sq_pl2 p l := by
  unfold min_distance_sq_pl2
  rw [project2_rev]
  cases project2 p l with
  | some q => rfl
  | none => simp [Line2.rev, min_comm]

theorem min_distance_sq_ll2_rev_left (l1 l2 : Line2) :
    min_distance_sq_ll2 l1.rev l2 = min_distance_sq_ll2 l1 l2 := by
  unfold min_distance_sq_ll2
  rw [intersection2_rev_left]
  refine if_congr Iff.rfl rfl ?_
  simp only [min_distance_sq_pl2_rev]
  simp only [Line2.rev]
  rw [min_comm (min_distance_sq_pl2 l1.p2 l2) (min_distance_sq_pl2 l1.p1 l2)]

theorem min_distance_sq_ll2_rev_right (l1 l2 : Line2) :
    min_distance_sq_ll2 l1 l2.rev = min_distance_sq_ll2 l1 l2 := by
  unfold min_distance_sq_ll2
  rw [intersection2_rev_right]
  refine if_congr Iff.rfl rfl ?_
  simp only [min_distance_sq_pl2_rev]
  simp only [Line2.rev]
  rw [min_comm (min_distance_sq_pl2 l2.p2 l1) (min_distance_sq_pl2 l2.p1 l1)]

theorem min_distance_sq_pt2_rot (p : Point2) (t : Triangle2) :
    min_distance_sq_pt2 p t.rot = min_distance_sq_pt2 p t := by
  unfold min_distance_sq_pt2
  rw [contains_point2_rot]
  refine if_congr Iff.rfl rfl ?_
  simp only [tri2_rot_e1, tri2_rot_e2, tri2_rot_e3]
  exact min3_rot _ _ _

theorem min_distance_sq_pt2_rev (p : Point2) (t : Triangle2) :
    min_distance_sq_pt2 p t.rev = min_distance_sq_pt2 p t := by
  unfold min_distance_sq_pt2
  rw [contains_point2_rev]
  refine if_congr Iff.rfl rfl ?_
  simp only [tri2_rev_e1, tri2_rev_e2, tri2_rev_e3,
    min_distance_sq_pl2_rev]
  exact min3_swap _ _ _

theorem min_distance_sq_lt2_rev_seg (l : Line2) (t : Triangle2) :
    min_distance_sq_lt2 l.rev t = min_distance_sq_lt2 l t := by
  unfold min_distance_sq_lt2
  simp only [Line2.rev]
  refine if_congr or_comm rfl ?_
  simp only [show (⟨l.p2, l.p1⟩ : Line2) = l.rev from rfl, min_distance_sq_ll2_rev_left]

theorem min_distance_sq_lt2_rot_tri (l : Line2) (t : Triangle2) :
    min_distance_sq_lt2 l t.rot = min_distance_sq_lt2 l t := by
  unfold min_distance_sq_lt2
  simp only [contains_point2_rot]
  refine if_congr Iff.rfl rfl ?_
  simp only [tri2_rot_e1, tri2_rot_e2, tri2_rot_e3]
  exact min3_rot _ _ _

theorem min_distance_sq_lt2_rev_tri (l : Line2) (t : Triangle2) :
    min_distance_sq_lt2 l t.rev = min_distance_sq_lt2 l t := by
  unfold min_distance_sq_lt2
  simp only [contains_point2_rev]
  refine if_congr Iff.rfl rfl ?_
  simp only [tri2_rev_e1, tri2_rev_e2, tri2_rev_e3,
    min_distance_sq_ll2_rev_right]
  exact min3_swap _ _ _

theorem min_distance_sq_tt2_rot_left (t1 t2 : Triangle2) :
    min_distance_sq_tt2 t1.rot t2 = min_distance_sq_tt2 t1 t2 := by
  unfold min_distance_sq_tt2
  simp only [tri2_rot_e1, tri2_rot_e2, tri2_rot_e3,
    min_distance_sq_lt2_rot_tri]
  rw [min3_rot (min_distance_sq_lt2 t1.e1 t2) (min_distance_sq_lt2 t1.e2 t2)
    (min_distance_sq_lt2 t1.e3 t2)]

theorem min_distance_sq_tt2_rev_left (t1 t2 : Triangle2) :
    min_distance_sq_tt2 t1.rev t2 = min_distance_sq_tt2 t1 t2 := by
  unfold min_distance_sq_tt2
  simp only [tri2_rev_e1, tri2_rev_e2, tri2_rev_e3,
    min_distance_sq_lt2_rev_seg, min_distance_sq_lt2_rev_tri]
  rw [min3_swap (min_distance_sq_lt2 t1.e1 t2) (min_distance_sq_lt2 t1.e2 t2)
    (min_distance_sq_lt2 t1.e3 t2)]

theorem min_distance_sq_tt2_rot_right (t1 t2 : Triangle2) :
    min_distance_sq_tt2 t1 t2.rot = min_distance_sq_tt2 t1 t2 := by
  unfold min_distance_sq_tt2
  simp only [tri2_rot_e1, tri2_rot_e2, tri2_rot_e3,
    min_distance_sq_lt2_rot_tri]
  rw [min3_rot (min_distance_sq_lt2 t2.e1 t1) (min_distance_sq_lt2 t2.e2 t1)
    (min_distance_sq_lt2 t2.e3 t1)]

theorem min_distance_sq_tt2_rev_right (t1 t2 : Triangle2) :
    min_distance_sq_tt2 t1 t2.rev = min_distance_sq_tt2 t1 t2 := by
  unfold min_distance_sq_tt2
  simp only [tri2_rev_e1, tri2_rev_e2, tri2_rev_e3,
    min_distance_sq_lt2_rev_seg, min_distance_sq_lt2_rev_tri]
  rw [min3_swap (min_distance_sq_lt2 t2.e1 t1) (min_distance_sq_lt2 t2.e2 t1)
    (min_distance_sq_lt2 t2.e3 t1)]

theorem dot3_comm (u v : Point3) : dot3 u v = dot3 v u := by
  obtain ⟨x, y, z⟩ := u; obtain ⟨p, q, r⟩ := v
  simp only [dot3]; ring

theorem dot3_self_zero (u v : Point3) (h : dot3 u u = 0) : dot3 u v = 0 := by
  obtain ⟨x, y, z⟩ := u; obtain ⟨p, q, r⟩ := v
  simp only [dot3] at h ⊢
  have hx : x * x = 0 := by nlinarith [mul_self_nonneg y, mul_self_nonneg z]
  have hy : y * y = 0 := by nlinarith [mul_self_nonneg x, mul_self_nonneg z]
  have hz : z * z = 0 := by nlinarith [mul_self_nonneg x, mul_self_nonneg y]
  rw [mul_self_eq_zero] at hx hy hz
  rw [hx, hy, hz]; ring

theorem clamp01_one_sub (x : ℚ) : max 0 (min 1 (1 - x)) = 1 - max 0 (min 1 x) := by
  rcases le_total x 0 with h | h
  · rw [min_eq_left (show (1 : ℚ) ≤ 1 - x by linarith),
      min_eq_right (show x ≤ (1 : ℚ) by linarith),
      max_eq_right (show (0 : ℚ) ≤ 1 by norm_num), max_eq_left h]
    ring
  · rcases le_total x 1 with h1 | h1
    · rw [min_eq_right (show (1 : ℚ) - x ≤ 1 by linarith), min_eq_right h1,
        max_eq_right (show (0 : ℚ) ≤ 1 - x by linarith), max_eq_right h]
    · rw [min_eq_right (show (1 : ℚ) - x ≤ 1 by linarith),
        max_eq_left (show (1 : ℚ) - x ≤ 0 by linarith), min_eq_left h1,
        max_eq_right (show (0 : ℚ) ≤ 1 by norm_num)]
      ring

theorem dot3_sub_self_comm (u v : Point3) :
    dot3 (u - v) (u - v) = dot3 (v - u) (v - u) := by
  obtain ⟨x, y, z⟩ := u; obtain ⟨p, q, r⟩ := v
  simp only [dot3, point3_sub_def]; ring

theorem dot3_sub_neg_left (u v w z : Point3) :
    dot3 (u - v) (w - z) = -(dot3 (v - u) (w - z)) := by
  obtain ⟨x1, x2, x3⟩ := u; obtain ⟨y1, y2, y3⟩ := v
  obtain ⟨z1, z2, z3⟩ := w; obtain ⟨w1, w2, w3⟩ := z
  simp only [dot3, point3_sub_def]; ring

theorem dot3_sub_neg_right (u v w z : Point3) :
    dot3 (u - v) (w - z) = -(dot3 (u - v) (z - w)) := by
  obtain ⟨x1, x2, x3⟩ := u; obtain ⟨y1, y2, y3⟩ := v
  obtain ⟨z1, z2, z3⟩ := w; obtain ⟨w1, w2, w3⟩ := z
  simp only [dot3, point3_sub_def]; ring

theorem dot3_flip_e (va vb vc : Point3) :
    dot3 (va - vb) (vb - vc) =
      -(dot3 (vb - va) (va - vc)) - dot3 (vb - va) (vb - va) := by
  obtain ⟨x1, x2, x3⟩ := va; obtain ⟨y1, y2, y3⟩ := vb; obtain ⟨z1, z2, z3⟩ := vc
  simp only [dot3, point3_sub_def]; ring

theorem dot3_flip_f (va vb vc vd : Point3) :
    dot3 (vd - vc) (vb - vc) =
      dot3 (vd - vc) (va - vc) + dot3 (vb - va) (vd - vc) := by
  obtain ⟨x1, x2, x3⟩ := va; obtain ⟨y1, y2, y3⟩ := vb
  obtain ⟨z1, z2, z3⟩ := vc; obtain ⟨w1, w2, w3⟩ := vd
  simp only [dot3, point3_sub_def]; ring

theorem dot3_flip_e2 (va vb vc vd : Point3) :
    dot3 (vb - va) (va - vd) =
      dot3 (vb - va) (va - vc) - dot3 (vb - va) (vd - vc) := by
  obtain ⟨x1, x2, x3⟩ := va; obtain ⟨y1, y2, y3⟩ := vb
  obtain ⟨z1, z2, z3⟩ := vc; obtain ⟨w1, w2, w3⟩ := vd
  simp only [dot3, point3_sub_def]; ring

theorem dot3_flip_f2 (va vc vd : Point3) :
    dot3 (vc - vd) (va - vd) =
      dot3 (vd - vc) (vd - vc) - dot3 (vd - vc) (va - vc) := by
  obtain ⟨x1, x2, x3⟩ := va; obtain ⟨z1, z2, z3⟩ := vc; obtain ⟨w1, w2, w3⟩ := vd
  simp only [dot3, point3_sub_def]; ring

theorem dot3_negsmul_negsmul (u v : Point3) :
    dot3 ((-1 : ℚ) • u) ((-1 : ℚ) • v) = dot3 u v := by
  obtain ⟨x, y, z⟩ := u; obtain ⟨p, q, r⟩ := v
  simp only [dot3, point3_smul_def]; ring

theorem dot3_negsmul_right (u v : Point3) :
    dot3 u ((-1 : ℚ) • v) = -(dot3 u v) := by
  obtain ⟨x, y, z⟩ := u; obtain ⟨p, q, r⟩ := v
  simp only [dot3, point3_smul_def]; ring

theorem triNormal_rot (t : Triangle3) : triNormal t.rot = triNormal t := by
  obtain ⟨⟨a1, a2, a3⟩, ⟨b1, b2, b3⟩, c1, c2, c3⟩ := t
  simp only [triNormal, Triangle3.rot, cross3, point3_sub_def]
  ext <;> dsimp only <;> ring

theorem triNormal_rev (t : Triangle3) :
    triNormal t.rev = (-1 : ℚ) • triNormal t := by
  obtain ⟨⟨a1, a2, a3⟩, ⟨b1, b2, b3⟩, c1, c2, c3⟩ := t
  simp only [triNormal, Triangle3.rev, cross3, point3_sub_def, point3_smul_def]
  ext <;> dsimp only <;> ring

theorem dot3_sub_triNormal_p2 (p : Point3) (t : Triangle3) :
    dot3 (p - t.p2) (triNormal t) = dot3 (p - t.p1) (triNormal t) := by
  obtain ⟨x, y, z⟩ := p
  obtain ⟨⟨a1, a2, a3⟩, ⟨b1, b2, b3⟩, c1, c2, c3⟩ := t
  simp only [dot3, triNormal, cross3, point3_sub_def]; ring

theorem dot3_sub_triNormal_p3 (p : Point3) (t : Triangle3) :
    dot3 (p - t.p3) (triNormal t) = dot3 (p - t.p1) (triNormal t) := by
  obtain ⟨x, y, z⟩ := p
  obtain ⟨⟨a1, a2, a3⟩, ⟨b1, b2, b3⟩, c1, c2, c3⟩ := t
  simp only [dot3, triNormal, cross3, point3_sub_def]; ring

theorem sideTest_swap_negn (b c q n : Point3) :
    sideTest c b q ((-1 : ℚ) • n) = sideTest b c q n := by
  obtain ⟨x1, x2, x3⟩ := b; obtain ⟨y1, y2, y3⟩ := c
  obtain ⟨z1, z2, z3⟩ := q; obtain ⟨w1, w2, w3⟩ := n
  simp only [sideTest, dot3, cross3, point3_sub_def, point3_smul_def]; ring

theorem planeProj_rot (p : Point3) (t : Triangle3) :
    planeProj p t.rot = planeProj p t := by
  unfold planeProj
  rw [triNormal_rot, show t.rot.p1 = t.p2 from rfl, dot3_sub_triNormal_p2]

theorem planeProj_rev (p : Point3) (t : Triangle3) :
    planeProj p t.rev = planeProj p t := by
  unfold planeProj
  rw [triNormal_rev, show t.rev.p1 = t.p3 from rfl, dot3_negsmul_negsmul,
    dot3_negsmul_right, dot3_sub_triNormal_p3]
  ext <;>
    simp only [point3_sub_def, point3_smul_def] <;>
    ring

/-- Projection onto a 3D triangle does not depend on rotating the vertex
order. -/
theorem projectT3_rot (p : Point3) (t : Triangle3) :
    projectT3 p t.rot = projectT3 p t := by
  simp only [projectT3]
  rw [triNormal_rot, planeProj_rot]
  refine if_congr Iff.rfl rfl (if_congr ?_ rfl rfl)
  rw [show t.rot.p1 = t.p2 from rfl, show t.rot.p2 = t.p3 from rfl,
    show t.rot.p3 = t.p1 from rfl]
  tauto

/-- Projection onto a 3D triangle does not depend on reversing the vertex
order. -/
theorem projectT3_rev (p : Point3) (t : Triangle3) :
    projectT3 p t.rev = projectT3 p t := by
  simp only [projectT3]
  rw [triNormal_rev, planeProj_rev, dot3_negsmul_negsmul,
    show t.rev.p1 = t.p3 from rfl, show t.rev.p2 = t.p2 from rfl,
    show t.rev.p3 = t.p1 from rfl, sideTest_swap_negn t.p2 t.p3,
    sideTest_swap_negn t.p1 t.p2, sideTest_swap_negn t.p3 t.p1]
  refine if_congr Iff.rfl rfl (if_congr ?_ rfl rfl)
  tauto

/-- `nearest_points` does not depend on the endpoint order of the first
segment. -/
theorem nearest_points3_rev_left (l1 l2 : Line3) :
    nearest_points3 l1.rev l2 = nearest_points3 l1 l2 := by
  simp only [nearest_points3, Line3.rev]
  rw [dot3_sub_self_comm l1.p1 l1.p2,
    dot3_sub_neg_left l1.p1 l1.p2 l2.p2 l2.p1,
    dot3_flip_e l1.p1 l1.p2 l2.p1,
    dot3_flip_f l1.p1 l1.p2 l2.p1 l2.p2]
  set a := dot3 (l1.p2 - l1.p1) (l1.p2 - l1.p1) with hA
  set b := dot3 (l1.p2 - l1.p1) (l2.p2 - l2.p1) with hB
  set c := dot3 (l2.p2 - l2.p1) (l2.p2 - l2.p1) with hC
  set e := dot3 (l1.p2 - l1.p1) (l1.p1 - l2.p1) with hE
  set f := dot3 (l2.p2 - l2.p1) (l1.p1 - l2.p1) with hF
  rw [show a * c - (-b) ^ 2 = a * c - b ^ 2 from by ring]
  by_cases hd : |a * c - b ^ 2| < eps
  · simp [hd]
  · have hne : a * c - b ^ 2 ≠ 0 := by
      intro h0; rw [h0, abs_zero] at hd; exact hd eps_pos
    have ha : a ≠ 0 := by
      intro h0
      have hb0 : b = 0 := by
        rw [hB]; exact dot3_self_zero _ _ (by rw [← hA, h0])
      apply hne; rw [h0, hb0]; ring
    simp only [if_neg hd]
    rw [show -b * (f + b) - c * (-e - a) = a * c - b ^ 2 - (b * f - c * e) from by
        ring,
      show (a * c - b ^ 2 - (b * f - c * e)) / (a * c - b ^ 2)
          = 1 - (b * f - c * e) / (a * c - b ^ 2) from by
        rw [sub_div, div_self hne],
      clamp01_one_sub]
    set s0 := 0 ⊔ 1 ⊓ (b * f - c * e) / (a * c - b ^ 2) with hS0
    clear_value s0
    rw [show -b * (1 - s0) + (f + b) = b * s0 + f from by ring]
    set t0 := 0 ⊔ 1 ⊓ (b * s0 + f) / c with hT0
    clear_value t0
    rw [show -b * t0 - (-e - a) = a - (b * t0 - e) from by ring,
      show (a - (b * t0 - e)) / a = 1 - (b * t0 - e) / a from by
        rw [sub_div, div_self ha],
      clamp01_one_sub]
    set s1 := 0 ⊔ 1 ⊓ (b * t0 - e) / a with hS1
    clear_value s1
    refine congrArg some ?_
    simp only [Prod.mk.injEq]
    refine ⟨?_, trivial⟩
    ext <;> simp only [point3_smul_def, point3_sub_def, point3_add_def] <;> ring

/-- `nearest_points` does not depend on the endpoint order of the second
segment. -/
theorem nearest_points3_rev_right (l1 l2 : Line3) :
    nearest_points3 l1 l2.rev = nearest_points3 l1 l2 := by
  simp only [nearest_points3, Line3.rev]
  rw [dot3_sub_self_comm l2.p1 l2.p2,
    dot3_sub_neg_right l1.p2 l1.p1 l2.p1 l2.p2,
    dot3_flip_e2 l1.p1 l1.p2 l2.p1 l2.p2,
    dot3_flip_f2 l1.p1 l2.p1 l2.p2]
  set a := dot3 (l1.p2 - l1.p1) (l1.p2 - l1.p1) with hA
  set b := dot3 (l1.p2 - l1.p1) (l2.p2 - l2.p1) with hB
  set c := dot3 (l2.p2 - l2.p1) (l2.p2 - l2.p1) with hC
  set e := dot3 (l1.p2 - l1.p1) (l1.p1 - l2.p1) with hE
  set f := dot3 (l2.p2 - l2.p1) (l1.p1 - l2.p1) with hF
  rw [show a * c - (-b) ^ 2 = a * c - b ^ 2 from by ring]
  by_cases hd : |a * c - b ^ 2| < eps
  · simp [hd]
  · have hne : a * c - b ^ 2 ≠ 0 := by
      intro h0; rw [h0, abs_zero] at hd; exact hd eps_pos
    have hc : c ≠ 0 := by
      intro h0
      have hb0 : b = 0 := by
        rw [hB, dot3_comm]; exact dot3_self_zero _ _ (by rw [← hC, h0])
      apply hne; rw [h0, hb0]; ring
    simp only [if_neg hd]
    rw [show -b * (c - f) - c * (e - b) = b * f - c * e from by ring]
    set s0 := 0 ⊔ 1 ⊓ (b * f - c * e) / (a * c - b ^ 2) with hS0
    clear_value s0
    rw [show -b * s0 + (c - f) = c - (b * s0 + f) from by ring,
      show (c - (b * s0 + f)) / c = 1 - (b * s0 + f) / c from by
        rw [sub_div, div_self hc],
      clamp01_one_sub]
    set t0 := 0 ⊔ 1 ⊓ (b * s0 + f) / c with hT0
    clear_value t0
    rw [show -b * (1 - t0) - (e - b) = b * t0 - e from by ring]
    refine congrArg some ?_
    simp only [Prod.mk.injEq]
    refine ⟨trivial, ?_⟩
    ext <;> simp only [point3_smul_def, point3_sub_def, point3_add_def] <;> ring


theorem trip_rot_a (d va vb vc : Point3) :
    dot3 (vc - vb) (cross3 d (va - vb)) = dot3 (vb - va) (cross3 d (vc - va)) := by
  obtain ⟨d1, d2, d3⟩ := d; obtain ⟨a1, a2, a3⟩ := va
  obtain ⟨b1, b2, b3⟩ := vb; obtain ⟨c1, c2, c3⟩ := vc
  simp only [dot3, cross3, point3_sub_def]; ring

theorem trip_rot_u (d pp va vb vc : Point3) :
    dot3 (pp - vb) (cross3 d (va - vb)) = dot3 d (cross3 (pp - va) (vb - va)) := by
  obtain ⟨d1, d2, d3⟩ := d; obtain ⟨p1, p2, p3⟩ := pp; obtain ⟨a1, a2, a3⟩ := va
  obtain ⟨b1, b2, b3⟩ := vb; obtain ⟨c1, c2, c3⟩ := vc
  simp only [dot3, cross3, point3_sub_def]; ring

theorem trip_rot_v (d pp va vb vc : Point3) :
    dot3 d (cross3 (pp - vb) (vc - vb)) =
      dot3 (vb - va) (cross3 d (vc - va)) - dot3 (pp - va) (cross3 d (vc - va)) -
        dot3 d (cross3 (pp - va) (vb - va)) := by
  obtain ⟨d1, d2, d3⟩ := d; obtain ⟨p1, p2, p3⟩ := pp; obtain ⟨a1, a2, a3⟩ := va
  obtain ⟨b1, b2, b3⟩ := vb; obtain ⟨c1, c2, c3⟩ := vc
  simp only [dot3, cross3, point3_sub_def]; ring

theorem trip_rot_t (d pp va vb vc : Point3) :
    dot3 (va - vb) (cross3 (pp - vb) (vc - vb)) =
      dot3 (vc - va) (cross3 (pp - va) (vb - va)) := by
  obtain ⟨d1, d2, d3⟩ := d; obtain ⟨p1, p2, p3⟩ := pp; obtain ⟨a1, a2, a3⟩ := va
  obtain ⟨b1, b2, b3⟩ := vb; obtain ⟨c1, c2, c3⟩ := vc
  simp only [dot3, cross3, point3_sub_def]; ring

theorem trip_rev_a (d va vb vc : Point3) :
    dot3 (vb - vc) (cross3 d (va - vc)) =
      -(dot3 (vb - va) (cross3 d (vc - va))) := by
  obtain ⟨d1, d2, d3⟩ := d; obtain ⟨a1, a2, a3⟩ := va
  obtain ⟨b1, b2, b3⟩ := vb; obtain ⟨c1, c2, c3⟩ := vc
  simp only [dot3, cross3, point3_sub_def]; ring

theorem trip_rev_u (d pp va vb vc : Point3) :
    dot3 (pp - vc) (cross3 d (va - vc)) =
      -(dot3 (pp - va) (cross3 d (vc - va))) := by
  obtain ⟨d1, d2, d3⟩ := d; obtain ⟨p1, p2, p3⟩ := pp; obtain ⟨a1, a2, a3⟩ := va
  obtain ⟨b1, b2, b3⟩ := vb; obtain ⟨c1, c2, c3⟩ := vc
  simp only [dot3, cross3, point3_sub_def]; ring

theorem trip_rev_v (d pp va vb vc : Point3) :
    dot3 d (cross3 (pp - vc) (vb - vc)) =
      -(dot3 (vb - va) (cross3 d (vc - va)) - dot3 (pp - va) (cross3 d (vc - va)) -
        dot3 d (cross3 (pp - va) (vb - va))) := by
  obtain ⟨d1, d2, d3⟩ := d; obtain ⟨p1, p2, p3⟩ := pp; obtain ⟨a1, a2, a3⟩ := va
  obtain ⟨b1, b2, b3⟩ := vb; obtain ⟨c1, c2, c3⟩ := vc
  simp only [dot3, cross3, point3_sub_def]; ring

theorem trip_rev_t (d pp va vb vc : Point3) :
    dot3 (va - vc) (cross3 (pp - vc) (vb - vc)) =
      -(dot3 (vc - va) (cross3 (pp - va) (vb - va))) := by
  obtain ⟨d1, d2, d3⟩ := d; obtain ⟨p1, p2, p3⟩ := pp; obtain ⟨a1, a2, a3⟩ := va
  obtain ⟨b1, b2, b3⟩ := vb; obtain ⟨c1, c2, c3⟩ := vc
  simp only [dot3, cross3, point3_sub_def]; ring

theorem trip_seg_a (pq qq va vb vc : Point3) :
    dot3 (vb - va) (cross3 (pq - qq) (vc - va)) =
      -(dot3 (vb - va) (cross3 (qq - pq) (vc - va))) := by
  obtain ⟨d1, d2, d3⟩ := pq; obtain ⟨p1, p2, p3⟩ := qq; obtain ⟨a1, a2, a3⟩ := va
  obtain ⟨b1, b2, b3⟩ := vb; obtain ⟨c1, c2, c3⟩ := vc
  simp only [dot3, cross3, point3_sub_def]; ring

theorem trip_seg_u (pq qq va vc : Point3) :
    dot3 (qq - va) (cross3 (pq - qq) (vc - va)) =
      -(dot3 (pq - va) (cross3 (qq - pq) (vc - va))) := by
  obtain ⟨d1, d2, d3⟩ := pq; obtain ⟨p1, p2, p3⟩ := qq; obtain ⟨a1, a2, a3⟩ := va
  obtain ⟨c1, c2, c3⟩ := vc
  simp only [dot3, cross3, point3_sub_def]; ring

theorem trip_seg_v (pq qq va vb : Point3) :
    dot3 (pq - qq) (cross3 (qq - va) (vb - va)) =
      -(dot3 (qq - pq) (cross3 (pq - va) (vb - va))) := by
  obtain ⟨d1, d2, d3⟩ := pq; obtain ⟨p1, p2, p3⟩ := qq; obtain ⟨a1, a2, a3⟩ := va
  obtain ⟨b1, b2, b3⟩ := vb
  simp only [dot3, cross3, point3_sub_def]; ring

theorem trip_seg_t (pq qq va vb vc : Point3) :
    dot3 (vc - va) (cross3 (qq - va) (vb - va)) =
      dot3 (vc - va) (cross3 (pq - va) (vb - va)) -
        dot3 (vb - va) (cross3 (qq - pq) (vc - va)) := by
  obtain ⟨d1, d2, d3⟩ := pq; obtain ⟨p1, p2, p3⟩ := qq; obtain ⟨a1, a2, a3⟩ := va
  obtain ⟨b1, b2, b3⟩ := vb; obtain ⟨c1, c2, c3⟩ := vc
  simp only [dot3, cross3, point3_sub_def]; ring


/-- Segment–triangle intersection testing does not depend on rotating the
triangle's vertex order. -/
theorem intersects3_rot_tri (l : Line3) (tr : Triangle3) :
    intersects3 l tr.rot = intersects3 l tr := by
  rw [Bool.eq_iff_iff]
  simp only [intersects3, Triangle3.rot]
  split_ifs with h1 h2 h2
  · exact Iff.rfl
  · rw [trip_rot_a (l.p2 - l.p1) tr.p1 tr.p2 tr.p3] at h1; exact absurd h1 h2
  · rw [trip_rot_a (l.p2 - l.p1) tr.p1 tr.p2 tr.p3] at h1; exact absurd h2 h1
  · rw [decide_eq_true_eq, decide_eq_true_eq,
      trip_rot_a (l.p2 - l.p1) tr.p1 tr.p2 tr.p3,
      trip_rot_u (l.p2 - l.p1) l.p1 tr.p1 tr.p2 tr.p3,
      trip_rot_v (l.p2 - l.p1) l.p1 tr.p1 tr.p2 tr.p3,
      trip_rot_t (l.p2 - l.p1) l.p1 tr.p1 tr.p2 tr.p3]
    rw [trip_rot_a (l.p2 - l.p1) tr.p1 tr.p2 tr.p3] at h1
    set aN := dot3 (tr.p2 - tr.p1) (cross3 (l.p2 - l.p1) (tr.p3 - tr.p1)) with hAN
    set uN := dot3 (l.p1 - tr.p1) (cross3 (l.p2 - l.p1) (tr.p3 - tr.p1)) with hUN
    set vN := dot3 (l.p2 - l.p1) (cross3 (l.p1 - tr.p1) (tr.p2 - tr.p1)) with hVN
    set tN := dot3 (tr.p3 - tr.p1) (cross3 (l.p1 - tr.p1) (tr.p2 - tr.p1)) with hTN
    have hne : aN ≠ 0 := fun h0 => h1 (by rw [h0, abs_zero]; exact eps_pos)
    rw [show (aN - uN - vN) / aN = 1 - uN / aN - vN / aN from by
      rw [sub_div, sub_div, div_self hne]]
    set u := uN / aN with hU
    set v := vN / aN with hV
    set t := tN / aN with hT
    clear_value u v t
    constructor
    · rintro ⟨g1, g2, g3, g4, g5, g6⟩
      exact ⟨by linarith, by linarith, by linarith, by linarith, g5, g6⟩
    · rintro ⟨g1, g2, g3, g4, g5, g6⟩
      exact ⟨by linarith, by linarith, by linarith, by linarith, g5, g6⟩

/-- Segment–triangle intersection testing does not depend on reversing the
triangle's vertex order. -/
theorem intersects3_rev_tri (l : Line3) (tr : Triangle3) :
    intersects3 l tr.rev = intersects3 l tr := by
  rw [Bool.eq_iff_iff]
  simp only [intersects3, Triangle3.rev]
  split_ifs with h1 h2 h2
  · exact Iff.rfl
  · rw [trip_rev_a (l.p2 - l.p1) tr.p1 tr.p2 tr.p3, abs_neg] at h1
    exact absurd h1 h2
  · rw [trip_rev_a (l.p2 - l.p1) tr.p1 tr.p2 tr.p3, abs_neg] at h1
    exact absurd h2 h1
  · rw [decide_eq_true_eq, decide_eq_true_eq,
      trip_rev_a (l.p2 - l.p1) tr.p1 tr.p2 tr.p3,
      trip_rev_u (l.p2 - l.p1) l.p1 tr.p1 tr.p2 tr.p3,
      trip_rev_v (l.p2 - l.p1) l.p1 tr.p1 tr.p2 tr.p3,
      trip_rev_t (l.p2 - l.p1) l.p1 tr.p1 tr.p2 tr.p3]
    rw [trip_rev_a (l.p2 - l.p1) tr.p1 tr.p2 tr.p3, abs_neg] at h1
    set aN := dot3 (tr.p2 - tr.p1) (cross3 (l.p2 - l.p1) (tr.p3 - tr.p1)) with hAN
    set uN := dot3 (l.p1 - tr.p1) (cross3 (l.p2 - l.p1) (tr.p3 - tr.p1)) with hUN
    set vN := dot3 (l.p2 - l.p1) (cross3 (l.p1 - tr.p1) (tr.p2 - tr.p1)) with hVN
    set tN := dot3 (tr.p3 - tr.p1) (cross3 (l.p1 - tr.p1) (tr.p2 - tr.p1)) with hTN
    have hne : aN ≠ 0 := fun h0 => h1 (by rw [h0, abs_zero]; exact eps_pos)
    rw [neg_div_neg_eq, neg_div_neg_eq, neg_div_neg_eq,
      show (aN - uN - vN) / aN = 1 - uN / aN - vN / aN from by
        rw [sub_div, sub_div, div_self hne]]
    set u := uN / aN with hU
    set v := vN / aN with hV
    set t := tN / aN with hT
    clear_value u v t
    constructor
    · rintro ⟨g1, g2, g3, g4, g5, g6⟩
      exact ⟨g1, g2, by linarith, by linarith, g5, g6⟩
    · rintro ⟨g1, g2, g3, g4, g5, g6⟩
      exact ⟨g1, g2, by linarith, by linarith, g5, g6⟩

/-- Segment–triangle intersection testing does not depend on the endpoint
order of the segment. -/
theorem intersects3_rev_seg (l : Line3) (tr : Triangle3) :
    intersects3 l.rev tr = intersects3 l tr := by
  rw [Bool.eq_iff_iff]
  simp only [intersects3, Line3.rev]
  split_ifs with h1 h2 h2
  · exact Iff.rfl
  · rw [trip_seg_a l.p1 l.p2 tr.p1 tr.p2 tr.p3, abs_neg] at h1
    exact absurd h1 h2
  · rw [trip_seg_a l.p1 l.p2 tr.p1 tr.p2 tr.p3, abs_neg] at h1
    exact absurd h2 h1
  · rw [decide_eq_true_eq, decide_eq_true_eq,
      trip_seg_a l.p1 l.p2 tr.p1 tr.p2 tr.p3,
      trip_seg_u l.p1 l.p2 tr.p1 tr.p3,
      trip_seg_v l.p1 l.p2 tr.p1 tr.p2,
      trip_seg_t l.p1 l.p2 tr.p1 tr.p2 tr.p3]
    rw [trip_seg_a l.p1 l.p2 tr.p1 tr.p2 tr.p3, abs_neg] at h1
    set aN := dot3 (tr.p2 - tr.p1) (cross3 (l.p2 - l.p1) (tr.p3 - tr.p1)) with hAN
    set uN := dot3 (l.p1 - tr.p1) (cross3 (l.p2 - l.p1) (tr.p3 - tr.p1)) with hUN
    set vN := dot3 (l.p2 - l.p1) (cross3 (l.p1 - tr.p1) (tr.p2 - tr.p1)) with hVN
    set tN := dot3 (tr.p3 - tr.p1) (cross3 (l.p1 - tr.p1) (tr.p2 - tr.p1)) with hTN
    have hne : aN ≠ 0 := fun h0 => h1 (by rw [h0, abs_zero]; exact eps_pos)
    rw [neg_div_neg_eq, neg_div_neg_eq,
      show tN - aN = -(aN - tN) from by ring, neg_div_neg_eq,
      show (aN - tN) / aN = 1 - tN / aN from by rw [sub_div, div_self hne]]
    set u := uN / aN with hU
    set v := vN / aN with hV
    set t := tN / aN with hT
    clear_value u v t
    constructor
    · rintro ⟨g1, g2, g3, g4, g5, g6⟩
      exact ⟨g1, g2, g3, g4, by linarith, by linarith⟩
    · rintro ⟨g1, g2, g3, g4, g5, g6⟩
      exact ⟨g1, g2, g3, g4, by linarith, by linarith⟩

@[simp] theorem tri3_rot_e1 (t : Triangle3) : t.rot.e1 = t.e2 := rfl

@[simp] theorem tri3_rot_e2 (t : Triangle3) : t.rot.e2 = t.e3 := rfl

@[simp] theorem tri3_rot_e3 (t : Triangle3) : t.rot.e3 = t.e1 := rfl

@[simp] theorem tri3_rev_e1 (t : Triangle3) : t.rev.e1 = t.e2.rev := rfl

@[simp] theorem tri3_rev_e2 (t : Triangle3) : t.rev.e2 = t.e1.rev := rfl

@[simp] theorem tri3_rev_e3 (t : Triangle3) : t.rev.e3 = t.e3.rev := rfl

theorem min_distance_sq_pl3_rev (p : Point3) (l : Line3) :
    min_distance_sq_pl3 p l.rev = min_distance_sq_pl3 p l := by
  unfold min_distance_sq_pl3
  rw [project3_rev]
  cases project3 p l with
  | some q => rfl
  | none => simp [Line3.rev, min_comm]

theorem min_distance_sq_ll3_rev_left (l1 l2 : Line3) :
    min_distance_sq_ll3 l1.rev l2 = min_distance_sq_ll3 l1 l2 := by
  unfold min_distance_sq_ll3
  rw [nearest_points3_rev_left]
  cases nearest_points3 l1 l2 with
  | some q => rfl
  | none =>
    simp only [min_distance_sq_pl3_rev]
    simp only [Line3.rev]
    rw [min_comm (min_distance_sq_pl3 l1.p2 l2) (min_distance_sq_pl3 l1.p1 l2)]

theorem min_distance_sq_ll3_rev_right (l1 l2 : Line3) :
    min_distance_sq_ll3 l1 l2.rev = min_distance_sq_ll3 l1 l2 := by
  unfold min_distance_sq_ll3
  rw [nearest_points3_rev_right]
  cases nearest_points3 l1 l2 with
  | some q => rfl
  | none =>
    simp only [min_distance_sq_pl3_rev]
    simp only [Line3.rev]
    rw [min_comm (min_distance_sq_pl3 l2.p2 l1) (min_distance_sq_pl3 l2.p1 l1)]

theorem min_distance_sq_pt3_rot (p : Point3) (t : Triangle3) :
    min_distance_sq_pt3 p t.rot = min_distance_sq_pt3 p t := by
  unfold min_distance_sq_pt3
  rw [projectT3_rot]
  cases projectT3 p t with
  | some q => rfl
  | none =>
    simp only [tri3_rot_e1, tri3_rot_e2, tri3_rot_e3]
    exact min3_rot _ _ _

theorem min_distance_sq_pt3_rev (p : Point3) (t : Triangle3) :
    min_distance_sq_pt3 p t.rev = min_distance_sq_pt3 p t := by
  unfold min_distance_sq_pt3
  rw [projectT3_rev]
  cases projectT3 p t with
  | some q => rfl
  | none =>
    simp only [tri3_rev_e1, tri3_rev_e2, tri3_rev_e3,
      min_distance_sq_pl3_rev]
    exact min3_swap _ _ _

theorem min_distance_sq_lt3_rev_seg (l : Line3) (t : Triangle3) :
    min_distance_sq_lt3 l.rev t = min_distance_sq_lt3 l t := by
  unfold min_distance_sq_lt3
  rw [intersects3_rev_seg]
  refine if_congr Iff.rfl rfl ?_
  simp only [min_distance_sq_ll3_rev_left]
  simp only [Line3.rev]
  rw [min_comm (min_distance_sq_pt3 l.p2 t) (min_distance_sq_pt3 l.p1 t)]

theorem min_distance_sq_lt3_rot_tri (l : Line3) (t : Triangle3) :
    min_distance_sq_lt3 l t.rot = min_distance_sq_lt3 l t := by
  unfold min_distance_sq_lt3
  rw [intersects3_rot_tri]
  refine if_congr Iff.rfl rfl ?_
  simp only [tri3_rot_e1, tri3_rot_e2, tri3_rot_e3,
    min_distance_sq_pt3_rot]
  rw [min3_rot (min_distance_sq_ll3 l t.e1) (min_distance_sq_ll3 l t.e2)
    (min_distance_sq_ll3 l t.e3)]

theorem min_distance_sq_lt3_rev_tri (l : Line3) (t : Triangle3) :
    min_distance_sq_lt3 l t.rev = min_distance_sq_lt3 l t := by
  unfold min_distance_sq_lt3
  rw [intersects3_rev_tri]
  refine if_congr Iff.rfl rfl ?_
  simp only [tri3_rev_e1, tri3_rev_e2, tri3_rev_e3,
    min_distance_sq_ll3_rev_right, min_distance_sq_pt3_rev]
  rw [min3_swap (min_distance_sq_ll3 l t.e1) (min_distance_sq_ll3 l t.e2)
    (min_distance_sq_ll3 l t.e3)]

theorem min_distance_sq_tt3_rot_left (t1 t2 : Triangle3) :
    min_distance_sq_tt3 t1.rot t2 = min_distance_sq_tt3 t1 t2 := by
  unfold min_distance_sq_tt3
  simp only [tri3_rot_e1, tri3_rot_e2, tri3_rot_e3,
    min_distance_sq_lt3_rot_tri]
  rw [min3_rot (min_distance_sq_lt3 t1.e1 t2) (min_distance_sq_lt3 t1.e2 t2)
    (min_distance_sq_lt3 t1.e3 t2)]

theorem min_distance_sq_tt3_rev_left (t1 t2 : Triangle3) :
    min_distance_sq_tt3 t1.rev t2 = min_distance_sq_tt3 t1 t2 := by
  unfold min_distance_sq_tt3
  simp only [tri3_rev_e1, tri3_rev_e2, tri3_rev_e3,
    min_distance_sq_lt3_rev_seg, min_distance_sq_lt3_rev_tri]
  rw [min3_swap (min_distance_sq_lt3 t1.e1 t2) (min_distance_sq_lt3 t1.e2 t2)
    (min_distance_sq_lt3 t1.e3 t2)]

theorem min_distance_sq_tt3_rot_right (t1 t2 : Triangle3) :
    min_distance_sq_tt3 t1 t2.rot = min_distance_sq_tt3 t1 t2 := by
  unfold min_distance_sq_tt3
  simp only [tri3_rot_e1, tri3_rot_e2, tri3_rot_e3,
    min_distance_sq_lt3_rot_tri]
  rw [min3_rot (min_distance_sq_lt3 t2.e1 t1) (min_distance_sq_lt3 t2.e2 t1)
    (min_distance_sq_lt3 t2.e3 t1)]

theorem min_distance_sq_tt3_rev_right (t1 t2 : Triangle3) :
    min_distance_sq_tt3 t1 t2.rev = min_distance_sq_tt3 t1 t2 := by
  unfold min_distance_sq_tt3
  simp only [tri3_rev_e1, tri3_rev_e2, tri3_rev_e3,
    min_distance_sq_lt3_rev_seg, min_distance_sq_lt3_rev_tri]
  rw [min3_swap (min_distance_sq_lt3 t2.e1 t1) (min_distance_sq_lt3 t2.e2 t1)
    (min_distance_sq_lt3 t2.e3 t1)]

/-- C3: for every 3D segment and triangle, the boolean `intersects` test
returns `true` exactly when `intersection` returns a defined point. -/
theorem c3_intersects_iff_intersection (l : Line3) (tr : Triangle3) :
    intersects3 l tr = true ↔ intersection3 l tr ≠ none := by
  simp only [intersects3, intersection3]
  split_ifs with h1 h2
  · simp
  · rw [decide_eq_true_eq]
    exact ⟨fun _ => by simp, fun _ => h2⟩
  · rw [decide_eq_true_eq]
    exact ⟨fun hc => absurd hc h2, fun hn => absurd rfl hn⟩

/-- C7: every modelled `min_distance` (squared) over pairs of points,
segments and triangles, in 2D and 3D, is unchanged by reversing the
endpoint order of any segment argument and by rotating or reversing the
vertex order of any triangle argument. -/
theorem c7_min_distance_invariance :
    (∀ (p : Point2) (l : Line2),
      min_distance_sq_pl2 p l.rev = min_distance_sq_pl2 p l) ∧
    (∀ l1 l2 : Line2,
      min_distance_sq_ll2 l1.rev l2 = min_distance_sq_ll2 l1 l2 ∧
      min_distance_sq_ll2 l1 l2.rev = min_distance_sq_ll2 l1 l2) ∧
    (∀ (p : Point2) (t : Triangle2),
      min_distance_sq_pt2 p t.rot = min_distance_sq_pt2 p t ∧
      min_distance_sq_pt2 p t.rev = min_distance_sq_pt2 p t) ∧
    (∀ (l : Line2) (t : Triangle2),
      min_distance_sq_lt2 l.rev t = min_distance_sq_lt2 l t ∧
      min_distance_sq_lt2 l t.rot = min_distance_sq_lt2 l t ∧
      min_distance_sq_lt2 l t.rev = min_distance_sq_lt2 l t) ∧
    (∀ t1 t2 : Triangle2,
      min_distance_sq_tt2 t1.rot t2 = min_distance_sq_tt2 t1 t2 ∧
      min_distance_sq_tt2 t1.rev t2 = min_distance_sq_tt2 t1 t2 ∧
      min_distance_sq_tt2 t1 t2.rot = min_distance_sq_tt2 t1 t2 ∧
      min_distance_sq_tt2 t1 t2.rev = min_distance_sq_tt2 t1 t2) ∧
    (∀ (p : Point3) (l : Line3),
      min_distance_sq_pl3 p l.rev = min_distance_sq_pl3 p l) ∧
    (∀ l1 l2 : Line3,
      min_distance_sq_ll3 l1.rev l2 = min_distance_sq_ll3 l1 l2 ∧
      min_distance_sq_ll3 l1 l2.rev = min_distance_sq_ll3 l1 l2) ∧
    (∀ (p : Point3) (t : Triangle3),
      min_distance_sq_pt3 p t.rot = min_distance_sq_pt3 p t ∧
      min_distance_sq_pt3 p t.rev = min_distance_sq_pt3 p t) ∧
    (∀ (l : Line3) (t : Triangle3),
      min_distance_sq_lt3 l.rev t = min_distance_sq_lt3 l t ∧
      min_distance_sq_lt3 l t.rot = min_distance_sq_lt3 l t ∧
      min_distance_sq_lt3 l t.rev = min_distance_sq_lt3 l t) ∧
    (∀ t1 t2 : Triangle3,
      min_distance_sq_tt3 t1.rot t2 = min_distance_sq_tt3 t1 t2 ∧
      min_distance_sq_tt3 t1.rev t2 = min_distance_sq_tt3 t1 t2 ∧
      min_distance_sq_tt3 t1 t2.rot = min_distance_sq_tt3 t1 t2 ∧
      min_distance_sq_tt3 t1 t2.rev = min_distance_sq_tt3 t1 t2) :=
  ⟨min_distance_sq_pl2_rev,
   fun l1 l2 => ⟨min_distance_sq_ll2_rev_left l1 l2,
     min_distance_sq_ll2_rev_right l1 l2⟩,
   fun p t => ⟨min_distance_sq_pt2_rot p t, min_distance_sq_pt2_rev p t⟩,
   fun l t => ⟨min_distance_sq_lt2_rev_seg l t, min_distance_sq_lt2_rot_tri l t,
     min_distance_sq_lt2_rev_tri l t⟩,
   fun t1 t2 => ⟨min_distance_sq_tt2_rot_left t1 t2,
     min_distance_sq_tt2_rev_left t1 t2, min_distance_sq_tt2_rot_right t1 t2,
     min_distance_sq_tt2_rev_right t1 t2⟩,
   min_distance_sq_pl3_rev,
   fun l1 l2 => ⟨min_distance_sq_ll3_rev_left l1 l2,
     min_distance_sq_ll3_rev_right l1 l2⟩,
   fun p t => ⟨min_distance_sq_pt3_rot p t, min_distance_sq_pt3_rev p t⟩,
   fun l t => ⟨min_distance_sq_lt3_rev_seg l t, min_distance_sq_lt3_rot_tri l t,
     min_distance_sq_lt3_rev_tri l t⟩,
   fun t1 t2 => ⟨min_distance_sq_tt3_rot_left t1 t2,
     min_distance_sq_tt3_rev_left t1 t2, min_distance_sq_tt3_rot_right t1 t2,
     min_distance_sq_tt3_rev_right t1 t2⟩⟩


theorem cross2_self (u : Point2) : cross2 u u = 0 := by
  simp only [cross2]; ring

/-- C5: 2D segment–segment intersection returns the unique intersection
point iff both parameters lie in `[0, 1]`; parallel or collinear segments
give an undefined result; non-parallel segments sharing an endpoint return
that endpoint; and the two concrete scenarios from the spec hold. -/
theorem c5_intersection2_characterization :
    (∀ l1 l2 : Line2, |cross2 (l1.p2 - l1.p1) (l2.p2 - l2.p1)| < eps →
      intersection2 l1 l2 = none) ∧
    (∀ l1 l2 : Line2, ¬ |cross2 (l1.p2 - l1.p1) (l2.p2 - l2.p1)| < eps →
      ((intersection2 l1 l2).isSome = true ↔
        (0 ≤ cross2 (l2.p1 - l1.p1) (l2.p2 - l2.p1) /
            cross2 (l1.p2 - l1.p1) (l2.p2 - l2.p1) ∧
          cross2 (l2.p1 - l1.p1) (l2.p2 - l2.p1) /
            cross2 (l1.p2 - l1.p1) (l2.p2 - l2.p1) ≤ 1 ∧
          0 ≤ cross2 (l2.p1 - l1.p1) (l1.p2 - l1.p1) /
            cross2 (l1.p2 - l1.p1) (l2.p2 - l2.p1) ∧
          cross2 (l2.p1 - l1.p1) (l1.p2 - l1.p1) /
            cross2 (l1.p2 - l1.p1) (l2.p2 - l2.p1) ≤ 1)) ∧
      (∀ q : Point2, intersection2 l1 l2 = some q →
        q = l1.p1 + (cross2 (l2.p1 - l1.p1) (l2.p2 - l2.p1) /
            cross2 (l1.p2 - l1.p1) (l2.p2 - l2.p1)) • (l1.p2 - l1.p1) ∧
        q = l2.p1 + (cross2 (l2.p1 - l1.p1) (l1.p2 - l1.p1) /
            cross2 (l1.p2 - l1.p1) (l2.p2 - l2.p1)) • (l2.p2 - l2.p1))) ∧
    (∀ l1 l2 : Line2, ¬ |cross2 (l1.p2 - l1.p1) (l2.p2 - l2.p1)| < eps →
      l1.p2 = l2.p1 → intersection2 l1 l2 = some l1.p2) ∧
    intersection2 ⟨⟨0, 0⟩, ⟨1, 1⟩⟩ ⟨⟨0, 1⟩, ⟨1, 0⟩⟩ = some ⟨1/2, 1/2⟩ ∧
    intersection2 ⟨⟨0, 0⟩, ⟨1, 1⟩⟩ ⟨⟨1, 1⟩, ⟨2, 2⟩⟩ = none := by
  refine ⟨?_, ?_, ?_, ?_, ?_⟩
  · intro l1 l2 h
    simp only [intersection2]
    rw [if_pos h]
  · intro l1 l2 h
    have hne : cross2 (l1.p2 - l1.p1) (l2.p2 - l2.p1) ≠ 0 := by
      intro h0; rw [h0, abs_zero] at h; exact h eps_pos
    constructor
    · simp only [intersection2, if_neg h]
      by_cases hin : 0 ≤ cross2 (l2.p1 - l1.p1) (l2.p2 - l2.p1) /
            cross2 (l1.p2 - l1.p1) (l2.p2 - l2.p1) ∧
          cross2 (l2.p1 - l1.p1) (l2.p2 - l2.p1) /
            cross2 (l1.p2 - l1.p1) (l2.p2 - l2.p1) ≤ 1 ∧
          0 ≤ cross2 (l2.p1 - l1.p1) (l1.p2 - l1.p1) /
            cross2 (l1.p2 - l1.p1) (l2.p2 - l2.p1) ∧
          cross2 (l2.p1 - l1.p1) (l1.p2 - l1.p1) /
            cross2 (l1.p2 - l1.p1) (l2.p2 - l2.p1) ≤ 1
      · simp [hin]
      · simp [hin]
    · intro q hq
      simp only [intersection2, if_neg h] at hq
      split_ifs at hq with hin
      rw [Option.some.injEq] at hq
      subst hq
      refine ⟨rfl, ?_⟩
      obtain ⟨⟨a1, a2⟩, b1, b2⟩ := l1
      obtain ⟨⟨c1, c2⟩, d1, d2⟩ := l2
      simp only [cross2, point2_sub_def, point2_add_def, point2_smul_def] at hne ⊢
      ext <;> field_simp <;> ring
  · intro l1 l2 h he
    obtain ⟨A, B⟩ := l1
    obtain ⟨C, D⟩ := l2
    dsimp only at he
    subst he
    have hne : cross2 (B - A) (D - B) ≠ 0 := by
      intro h0; dsimp only at h; rw [h0, abs_zero] at h; exact h eps_pos
    simp only [intersection2]
    rw [if_neg h, div_self hne, cross2_self, zero_div,
      if_pos (by norm_num : (0:ℚ) ≤ 1 ∧ (1:ℚ) ≤ 1 ∧ (0:ℚ) ≤ 0 ∧ (0:ℚ) ≤ 1)]
    congr 1
    ext <;> simp only [point2_sub_def, point2_add_def, point2_smul_def] <;> ring
  · norm_num [intersection2, cross2, eps, point2_sub_def, point2_add_def,
      point2_smul_def]
  · norm_num [intersection2, cross2, eps, point2_sub_def, point2_add_def,
      point2_smul_def]

/-- Witness for C5: the theorem applied at concrete non-parallel inputs. -/
theorem c5_witness :
    (intersection2 ⟨⟨0, 0⟩, ⟨1, 1⟩⟩ ⟨⟨0, 1⟩, ⟨1, 0⟩⟩).isSome = true ∧
    intersection2 ⟨⟨0, 0⟩, ⟨1, 1⟩⟩ ⟨⟨1, 1⟩, ⟨3, 1⟩⟩ = some ⟨1, 1⟩ := by
  constructor
  · exact (c5_intersection2_characterization.2.1 ⟨⟨0, 0⟩, ⟨1, 1⟩⟩ ⟨⟨0, 1⟩, ⟨1, 0⟩⟩
      (by norm_num [cross2, eps, point2_sub_def])).1.mpr
      (by norm_num [cross2, point2_sub_def])
  · exact c5_intersection2_characterization.2.2.1 ⟨⟨0, 0⟩, ⟨1, 1⟩⟩ ⟨⟨1, 1⟩, ⟨3, 1⟩⟩
      (by norm_num [cross2, eps, point2_sub_def]) rfl


/-- C6: in 2D and in 3D, `project(point, segment)` returns the foot of the
perpendicular (a point `q` with `(p − q) ⊥ (p2 − p1)`) exactly when the
projection parameter `t = ((p−p1)·(p2−p1)) / ‖p2−p1‖²` lies in the closed
interval `[0, 1]`; `t = 0` and `t = 1` return the respective endpoints; a
parameter outside `[0, 1]` or a degenerate segment gives an undefined
result. -/
theorem c6_project_characterization :
    ((∀ (p : Point2) (l : Line2), dot2 (l.p2 - l.p1) (l.p2 - l.p1) < eps →
        project2 p l = none) ∧
      (∀ (p : Point2) (l : Line2), ¬ dot2 (l.p2 - l.p1) (l.p2 - l.p1) < eps →
        ((project2 p l).isSome = true ↔
          (0 ≤ dot2 (p - l.p1) (l.p2 - l.p1) / dot2 (l.p2 - l.p1) (l.p2 - l.p1) ∧
            dot2 (p - l.p1) (l.p2 - l.p1) / dot2 (l.p2 - l.p1) (l.p2 - l.p1) ≤ 1)) ∧
        (dot2 (p - l.p1) (l.p2 - l.p1) / dot2 (l.p2 - l.p1) (l.p2 - l.p1) = 0 →
          project2 p l = some l.p1) ∧
        (dot2 (p - l.p1) (l.p2 - l.p1) / dot2 (l.p2 - l.p1) (l.p2 - l.p1) = 1 →
          project2 p l = some l.p2) ∧
        (∀ q : Point2, project2 p l = some q →
          dot2 (p - q) (l.p2 - l.p1) = 0))) ∧
    ((∀ (p : Point3) (l : Line3), dot3 (l.p2 - l.p1) (l.p2 - l.p1) < eps →
        project3 p l = none) ∧
      (∀ (p : Point3) (l : Line3), ¬ dot3 (l.p2 - l.p1) (l.p2 - l.p1) < eps →
        ((project3 p l).isSome = true ↔
          (0 ≤ dot3 (p - l.p1) (l.p2 - l.p1) / dot3 (l.p2 - l.p1) (l.p2 - l.p1) ∧
            dot3 (p - l.p1) (l.p2 - l.p1) / dot3 (l.p2 - l.p1) (l.p2 - l.p1) ≤ 1)) ∧
        (dot3 (p - l.p1) (l.p2 - l.p1) / dot3 (l.p2 - l.p1) (l.p2 - l.p1) = 0 →
          project3 p l = some l.p1) ∧
        (dot3 (p - l.p1) (l.p2 - l.p1) / dot3 (l.p2 - l.p1) (l.p2 - l.p1) = 1 →
          project3 p l = some l.p2) ∧
        (∀ q : Point3, project3 p l = some q →
          dot3 (p - q) (l.p2 - l.p1) = 0))) := by
  constructor
  · constructor
    · intro p l h
      simp only [project2]
      rw [if_pos h]
    · intro p l h
      have hne : dot2 (l.p2 - l.p1) (l.p2 - l.p1) ≠ 0 := by
        intro h0; rw [h0] at h; exact h eps_pos
      refine ⟨?_, ?_, ?_, ?_⟩
      · simp only [project2, if_neg h]
        by_cases hin : 0 ≤ dot2 (p - l.p1) (l.p2 - l.p1) /
              dot2 (l.p2 - l.p1) (l.p2 - l.p1) ∧
            dot2 (p - l.p1) (l.p2 - l.p1) / dot2 (l.p2 - l.p1) (l.p2 - l.p1) ≤ 1
        · simp [hin]
        · simp [hin]
      · intro h0
        simp only [project2, if_neg h]
        rw [h0, if_pos (by norm_num : (0:ℚ) ≤ 0 ∧ (0:ℚ) ≤ 1)]
        congr 1
        ext <;> simp only [point2_add_def, point2_smul_def, point2_sub_def] <;> ring
      · intro h0
        simp only [project2, if_neg h]
        rw [h0, if_pos (by norm_num : (0:ℚ) ≤ 1 ∧ (1:ℚ) ≤ 1)]
        congr 1
        ext <;> simp only [point2_add_def, point2_smul_def, point2_sub_def] <;> ring
      · intro q hq
        simp only [project2, if_neg h] at hq
        split_ifs at hq with hin
        rw [Option.some.injEq] at hq
        subst hq
        obtain ⟨p1, p2⟩ := p
        obtain ⟨⟨a1, a2⟩, b1, b2⟩ := l
        simp only [dot2, point2_sub_def, point2_add_def, point2_smul_def] at hne ⊢
        field_simp
        ring
  · constructor
    · intro p l h
      simp only [project3]
      rw [if_pos h]
    · intro p l h
      have hne : dot3 (l.p2 - l.p1) (l.p2 - l.p1) ≠ 0 := by
        intro h0; rw [h0] at h; exact h eps_pos
      refine ⟨?_, ?_, ?_, ?_⟩
      · simp only [project3, if_neg h]
        by_cases hin : 0 ≤ dot3 (p - l.p1) (l.p2 - l.p1) /
              dot3 (l.p2 - l.p1) (l.p2 - l.p1) ∧
            dot3 (p - l.p1) (l.p2 - l.p1) / dot3 (l.p2 - l.p1) (l.p2 - l.p1) ≤ 1
        · simp [hin]
        · simp [hin]
      · intro h0
        simp only [project3, if_neg h]
        rw [h0, if_pos (by norm_num : (0:ℚ) ≤ 0 ∧ (0:ℚ) ≤ 1)]
        congr 1
        ext <;> simp only [point3_add_def, point3_smul_def, point3_sub_def] <;> ring
      · intro h0
        simp only [project3, if_neg h]
        rw [h0, if_pos (by norm_num : (0:ℚ) ≤ 1 ∧ (1:ℚ) ≤ 1)]
        congr 1
        ext <;> simp only [point3_add_def, point3_smul_def, point3_sub_def] <;> ring
      · intro q hq
        simp only [project3, if_neg h] at hq
        split_ifs at hq with hin
        rw [Option.some.injEq] at hq
        subst hq
        obtain ⟨p1, p2, p3⟩ := p
        obtain ⟨⟨a1, a2, a3⟩, b1, b2, b3⟩ := l
        simp only [dot3, point3_sub_def, point3_add_def, point3_smul_def] at hne ⊢
        field_simp
        ring

/-- Witness for C6: the theorem applied at concrete inputs (a projection
that falls inside the segment, and endpoint parameters). -/
theorem c6_witness :
    (project2 ⟨0, 0⟩ ⟨⟨1, 0⟩, ⟨0, 1⟩⟩).isSome = true ∧
    project2 ⟨0, 0⟩ ⟨⟨0, 0⟩, ⟨1, 0⟩⟩ = some ⟨0, 0⟩ ∧
    (project3 ⟨0, 0, 0⟩ ⟨⟨1, 0, 0⟩, ⟨0, 1, 0⟩⟩).isSome = true := by
  refine ⟨?_, ?_, ?_⟩
  · exact (c6_project_characterization.1.2 ⟨0, 0⟩ ⟨⟨1, 0⟩, ⟨0, 1⟩⟩
      (by norm_num [dot2, eps, point2_sub_def])).1.mpr
      (by norm_num [dot2, point2_sub_def])
  · exact (c6_project_characterization.1.2 ⟨0, 0⟩ ⟨⟨0, 0⟩, ⟨1, 0⟩⟩
      (by norm_num [dot2, eps, point2_sub_def])).2.1
      (by norm_num [dot2, point2_sub_def])
  · exact (c6_project_characterization.2.2 ⟨0, 0, 0⟩ ⟨⟨1, 0, 0⟩, ⟨0, 1, 0⟩⟩
      (by norm_num [dot3, eps, point3_sub_def])).1.mpr
      (by norm_num [dot3, point3_sub_def])


theorem project2_degen (p a : Point2) : project2 p ⟨a, a⟩ = none := by
  simp only [project2]
  rw [show dot2 (a - a) (a - a) = 0 from by simp [dot2], if_pos eps_pos]

theorem project3_degen (p a : Point3) : project3 p ⟨a, a⟩ = none := by
  simp only [project3]
  rw [show dot3 (a - a) (a - a) = 0 from by simp [dot3], if_pos eps_pos]

theorem area2_degen (a b : Point2) : area2 ⟨a, a, b⟩ = 0 := by
  simp only [area2]
  rw [show cross2 (a - a) (b - a) = 0 from by simp [cross2]]
  norm_num

theorem intersection2_parallel (a b v : Point2) :
    intersection2 ⟨a, a + v⟩ ⟨b, b + v⟩ = none := by
  simp only [intersection2]
  rw [show cross2 (a + v - a) (b + v - b) = 0 from by
      obtain ⟨a1, a2⟩ := a; obtain ⟨b1, b2⟩ := b; obtain ⟨v1, v2⟩ := v
      simp only [cross2, point2_add_def, point2_sub_def]; ring,
    abs_zero, if_pos eps_pos]

theorem intersection3_parallel (p : Point3) (tr : Triangle3) :
    intersection3 ⟨p, p + (tr.p2 - tr.p1)⟩ tr = none := by
  simp only [intersection3]
  rw [show dot3 (tr.p2 - tr.p1)
        (cross3 (p + (tr.p2 - tr.p1) - p) (tr.p3 - tr.p1)) = 0 from by
      obtain ⟨p1, p2, p3⟩ := p
      obtain ⟨⟨a1, a2, a3⟩, ⟨b1, b2, b3⟩, c1, c2, c3⟩ := tr
      simp only [dot3, cross3, point3_add_def, point3_sub_def]; ring,
    abs_zero, if_pos eps_pos]

theorem intersects3_parallel (p : Point3) (tr : Triangle3) :
    intersects3 ⟨p, p + (tr.p2 - tr.p1)⟩ tr = false := by
  simp only [intersects3]
  rw [show dot3 (tr.p2 - tr.p1)
        (cross3 (p + (tr.p2 - tr.p1) - p) (tr.p3 - tr.p1)) = 0 from by
      obtain ⟨p1, p2, p3⟩ := p
      obtain ⟨⟨a1, a2, a3⟩, ⟨b1, b2, b3⟩, c1, c2, c3⟩ := tr
      simp only [dot3, cross3, point3_add_def, point3_sub_def]; ring,
    abs_zero, if_pos eps_pos]

theorem nearest_points3_parallel (a b v : Point3) :
    nearest_points3 ⟨a, a + v⟩ ⟨b, b + v⟩ = none := by
  simp only [nearest_points3]
  rw [show dot3 (a + v - a) (a + v - a) * dot3 (b + v - b) (b + v - b) -
        dot3 (a + v - a) (b + v - b) ^ 2 = 0 from by
      obtain ⟨a1, a2, a3⟩ := a; obtain ⟨b1, b2, b3⟩ := b
      obtain ⟨v1, v2, v3⟩ := v
      simp only [dot3, point3_add_def, point3_sub_def]; ring,
    abs_zero, if_pos eps_pos]

theorem projectT3_degen (p a b : Point3) : projectT3 p ⟨a, a, b⟩ = none := by
  simp only [projectT3]
  rw [show dot3 (triNormal ⟨a, a, b⟩) (triNormal ⟨a, a, b⟩) = 0 from by
      obtain ⟨a1, a2, a3⟩ := a; obtain ⟨b1, b2, b3⟩ := b
      simp only [triNormal, cross3, dot3, point3_sub_def]; ring,
    if_pos eps_pos]

theorem min_distance_sq_pl2_degen (p a : Point2) :
    min_distance_sq_pl2 p ⟨a, a⟩ = distSq2 p a := by
  unfold min_distance_sq_pl2
  rw [project2_degen]
  exact min_self _

theorem min_distance_sq_pl3_degen (p a : Point3) :
    min_distance_sq_pl3 p ⟨a, a⟩ = distSq3 p a := by
  unfold min_distance_sq_pl3
  rw [project3_degen]
  exact min_self _

theorem contains_point2_degen (a p : Point2) :
    contains_point2 ⟨a, a, a⟩ p = true := by
  simp [contains_point2, cross2]

/-- Modelled from the spec: the missing kernel `rotate(point2d, angle)` —
counterclockwise rotation about the origin.  The angle is represented by
its cosine and sine (a unit direction), the only exact representation of a
rotation available in rational arithmetic. -/
def rotate (c s : ℚ) (p : Point2) : Point2 :=
  ⟨c * p.x - s * p.y, s * p.x + c * p.y⟩

/-- Modelled from the spec: the square of the missing kernel
`area(triangle3d)`, `(½ · ‖(p2−p1) × (p3−p1)‖)²` (squared so the value
stays rational, like the squared distances). -/
def area_sq3 (t : Triangle3) : ℚ :=
  dot3 (cross3 (t.p2 - t.p1) (t.p3 - t.p1)) (cross3 (t.p2 - t.p1) (t.p3 - t.p1)) / 4

theorem rotate_id (p : Point2) : rotate 1 0 p = p := by
  obtain ⟨x, y⟩ := p
  simp only [rotate]
  congr 1 <;> ring

theorem rotate_preserves_distSq (c s : ℚ) (p : Point2)
    (h : c ^ 2 + s ^ 2 = 1) :
    distSq2 ⟨0, 0⟩ (rotate c s p) = distSq2 ⟨0, 0⟩ p := by
  obtain ⟨x, y⟩ := p
  simp only [rotate, distSq2]
  linear_combination (x ^ 2 + y ^ 2) * h

theorem area2_collinear (a b : Point2) (t : ℚ) :
    area2 ⟨a, b, a + t • (b - a)⟩ = 0 := by
  simp only [area2]
  rw [show cross2 (b - a) (a + t • (b - a) - a) = 0 from by
      obtain ⟨a1, a2⟩ := a; obtain ⟨b1, b2⟩ := b
      simp only [cross2, point2_sub_def, point2_add_def, point2_smul_def]
      ring,
    abs_zero]
  norm_num

theorem area_sq3_degen (a b : Point3) : area_sq3 ⟨a, a, b⟩ = 0 := by
  simp only [area_sq3]
  rw [div_eq_zero_iff]
  left
  obtain ⟨a1, a2, a3⟩ := a; obtain ⟨b1, b2, b3⟩ := b
  simp only [cross3, dot3, point3_sub_def]
  ring

theorem area_sq3_collinear (a b : Point3) (t : ℚ) :
    area_sq3 ⟨a, b, a + t • (b - a)⟩ = 0 := by
  simp only [area_sq3]
  rw [div_eq_zero_iff]
  left
  obtain ⟨a1, a2, a3⟩ := a; obtain ⟨b1, b2, b3⟩ := b
  simp only [cross3, dot3, point3_sub_def, point3_add_def, point3_smul_def]
  ring

/-- C4: the modelled kernel operations — `distance`, `area` (2D and 3D),
`rotate`, `project` (onto segments and triangles), `intersection` (2D and
3D), `intersects`, `nearest_points`, `min_distance`, `contains_point` —
are total: every fallible operation is valued in an option type, and on
the degenerate configurations the spec singles out (zero-length segments,
repeated or collinear triangle vertices, parallel directions, coincident
points) each returns the undefined value or a zero measure rather than
failing; `rotate` is unconditional arithmetic that fixes the origin frame
(identity at angle zero) and preserves distances for every unit
direction. -/
theorem c4_kernel_degenerate_total :
    (∀ p a : Point2, project2 p ⟨a, a⟩ = none) ∧
    (∀ p a : Point3, project3 p ⟨a, a⟩ = none) ∧
    (∀ a b : Point2, area2 ⟨a, a, b⟩ = 0) ∧
    (∀ (a b : Point2) (t : ℚ), area2 ⟨a, b, a + t • (b - a)⟩ = 0) ∧
    (∀ a b : Point3, area_sq3 ⟨a, a, b⟩ = 0) ∧
    (∀ (a b : Point3) (t : ℚ), area_sq3 ⟨a, b, a + t • (b - a)⟩ = 0) ∧
    (∀ a b v : Point2, intersection2 ⟨a, a + v⟩ ⟨b, b + v⟩ = none) ∧
    (∀ (p : Point3) (tr : Triangle3),
      intersection3 ⟨p, p + (tr.p2 - tr.p1)⟩ tr = none ∧
      intersects3 ⟨p, p + (tr.p2 - tr.p1)⟩ tr = false) ∧
    (∀ a b v : Point3, nearest_points3 ⟨a, a + v⟩ ⟨b, b + v⟩ = none) ∧
    (∀ p a b : Point3, projectT3 p ⟨a, a, b⟩ = none) ∧
    (∀ p a : Point2, min_distance_sq_pl2 p ⟨a, a⟩ = distSq2 p a) ∧
    (∀ p a : Point3, min_distance_sq_pl3 p ⟨a, a⟩ = distSq3 p a) ∧
    (∀ a p : Point2, contains_point2 ⟨a, a, a⟩ p = true) ∧
    (∀ p : Point2, rotate 1 0 p = p) ∧
    (∀ (c s : ℚ) (p : Point2), c ^ 2 + s ^ 2 = 1 →
      distSq2 ⟨0, 0⟩ (rotate c s p) = distSq2 ⟨0, 0⟩ p) ∧
    (∀ a : Point2, distSq2 a a = 0) ∧
    (∀ a : Point3, distSq3 a a = 0) :=
  ⟨project2_degen, project3_degen, area2_degen, area2_collinear,
   area_sq3_degen, area_sq3_collinear, intersection2_parallel,
   fun p tr => ⟨intersection3_parallel p tr, intersects3_parallel p tr⟩,
   nearest_points3_parallel, projectT3_degen, min_distance_sq_pl2_degen,
   min_distance_sq_pl3_degen, contains_point2_degen, rotate_id,
   rotate_preserves_distSq,
   fun a => by simp [distSq2], fun a => by simp [distSq3]⟩

/-- Witness for C4: the theorem's rotation clause applied at the concrete
unit direction for a quarter turn. -/
theorem c4_witness :
    (0 : ℚ) ^ 2 + (1 : ℚ) ^ 2 = 1 ∧
    distSq2 ⟨0, 0⟩ (rotate 0 1 ⟨1, 0⟩) = distSq2 ⟨0, 0⟩ ⟨1, 0⟩ :=
  ⟨by norm_num,
   c4_kernel_degenerate_total.2.2.2.2.2.2.2.2.2.2.2.2.2.2.1 0 1 ⟨1, 0⟩
     (by norm_num)⟩


/-- A face: a triple of vertex indices. -/
abbrev Face := Nat × Nat × Nat

/-- Modelled from the spec: the missing `Trimesh` mesh type of the compiled
core — an insertion-ordered vertex sequence (3D points, as exercised by the
test-suite) together with an ordered face sequence of index triples. -/
structure Trimesh where
  vertices : List Point3
  faces : List Face
  deriving DecidableEq, Repr

/-- Modelled from the spec: `add_vertex(p) → index` — appends the vertex
and returns its index. -/
def add_vertex (m : Trimesh) (p : Point3) : Trimesh × Nat :=
  ({ m with vertices := m.vertices ++ [p] }, m.vertices.length)

/-- Raw face append (no checks), used by mesh concatenation. -/
def add_face_raw (m : Trimesh) (f : Face) : Trimesh :=
  { m with faces := m.faces ++ [f] }

/-- Modelled from the spec: `add_face(a, b, c)` — appends the face after
checking that the three indices are in range.  It is a raw construction
primitive: it does not check that the indices are pairwise distinct, nor
any Delaunay or non-overlap property. -/
def add_face (m : Trimesh) (a b c : Nat) : Option Trimesh :=
  if a < m.vertices.length ∧ b < m.vertices.length ∧ c < m.vertices.length then
    some (add_face_raw m (a, b, c))
  else none

/-- Shift all indices of a face by `n` (for concatenation). -/
def shiftFace (n : Nat) (f : Face) : Face := (f.1 + n, f.2.1 + n, f.2.2 + n)

/-- Modelled from the spec: in-place mesh concatenation `A ⊕= B` — append
B's vertices one at a time, then B's faces with every index shifted by the
original vertex count of A. -/
def append_into (a b : Trimesh) : Trimesh :=
  let n := a.vertices.length
  let m1 := b.vertices.foldl (fun m p => (add_vertex m p).1) a
  b.faces.foldl (fun m f => add_face_raw m (shiftFace n f)) m1

/-- Modelled from the spec: mesh concatenation `A ⊕ B` — a copy of `A`
with `B` appended into it, exactly as the in-place version. -/
def concat (a b : Trimesh) : Trimesh := append_into a b

theorem foldl_add_vertex (a : Trimesh) (l : List Point3) :
    l.foldl (fun m p => (add_vertex m p).1) a = ⟨a.vertices ++ l, a.faces⟩ := by
  induction l generalizing a with
  | nil => simp
  | cons p l ih =>
    rw [List.foldl_cons, ih]
    simp [add_vertex]

theorem foldl_add_face_raw (a : Trimesh) (l : List Face) (g : Face → Face) :
    l.foldl (fun m f => add_face_raw m (g f)) a
      = ⟨a.vertices, a.faces ++ l.map g⟩ := by
  induction l generalizing a with
  | nil => simp
  | cons f l ih =>
    rw [List.foldl_cons, ih]
    simp [add_face_raw]

/-- C9: concatenation produces the mesh whose vertex sequence is
`A.vertices ++ B.vertices` and whose face sequence is `A.faces` followed by
`B.faces` shifted by `|A.vertices|`; the lengths add, and the in-place
concatenation gives a mesh structurally equal to the functional one. -/
theorem c9_concat_spec (a b : Trimesh) :
    (concat a b).vertices = a.vertices ++ b.vertices ∧
    (concat a b).faces = a.faces ++ b.faces.map (shiftFace a.vertices.length) ∧
    (concat a b).vertices.length = a.vertices.length + b.vertices.length ∧
    (concat a b).faces.length = a.faces.length + b.faces.length ∧
    append_into a b = concat a b := by
  have h : concat a b
      = ⟨a.vertices ++ b.vertices,
         a.faces ++ b.faces.map (shiftFace a.vertices.length)⟩ := by
    unfold concat append_into
    rw [foldl_add_vertex, foldl_add_face_raw]
  refine ⟨by rw [h], by rw [h], ?_, ?_, rfl⟩
  · rw [h]; simp
  · rw [h]; simp

/-- C10: for in-range indices — including repeated ones — `add_face`
succeeds and appends the face; no pairwise-distinctness check is made. -/
theorem c10_add_face_no_distinct_check (m : Trimesh) (a b c : Nat)
    (ha : a < m.vertices.length) (hb : b < m.vertices.length)
    (hc : c < m.vertices.length) :
    add_face m a b c = some { m with faces := m.faces ++ [(a, b, c)] } := by
  unfold add_face add_face_raw
  rw [if_pos ⟨ha, hb, hc⟩]

/-- Witness for C10: adding a face with all three indices equal succeeds. -/
theorem c10_witness :
    add_face ⟨[⟨0, 0, 0⟩, ⟨1, 0, 0⟩], []⟩ 1 1 1
      = some ⟨[⟨0, 0, 0⟩, ⟨1, 0, 0⟩], [(1, 1, 1)]⟩ :=
  c10_add_face_no_distinct_check ⟨[⟨0, 0, 0⟩, ⟨1, 0, 0⟩], []⟩ 1 1 1
    (by norm_num) (by norm_num) (by norm_num)


/-- Modelled from the spec: the missing `Trimesh2D` type — insertion-ordered
2D vertices with an ordered face list of index triples. -/
structure Trimesh2 where
  vertices : List Point2
  faces : List Face
  deriving DecidableEq, Repr

/-- Modelled from the spec: silent deduplication of the input point list —
a point is dropped when an earlier kept point is within `ε` of it. -/
def dedup_points (ps : List Point2) : List Point2 :=
  ps.foldl
    (fun acc p => if acc.any (fun q => distSq2 q p < eps * eps) then acc
      else acc ++ [p]) []

/-- All unordered pairs of a list, in order. -/
def listPairs : List α → List (α × α)
  | [] => []
  | x :: xs => xs.map (fun y => (x, y)) ++ listPairs xs

/-- All unordered triples of a list, in order. -/
def listTriples : List α → List (α × α × α)
  | [] => []
  | x :: xs => (listPairs xs).map (fun q => (x, q.1, q.2)) ++ listTriples xs

/-- Modelled from the spec: every triple of the point list is collinear
within `ε` (the degenerate-input test of the triangulator). -/
def all_collinear (ps : List Point2) : Bool :=
  (listTriples ps).all
    (fun t => |cross2 (t.2.1 - t.1) (t.2.2 - t.1)| ≤ eps)

/-- Modelled from the spec: the super-triangle — a triangle that strictly
contains the bounding box of the points with margin at least twice the
box's maximum extent. -/
def superTri (ps : List Point2) : Point2 × Point2 × Point2 :=
  match ps with
  | [] => (⟨-1, -1⟩, ⟨1, -1⟩, ⟨0, 1⟩)
  | p :: rest =>
    let minx := rest.foldl (fun m q => min m q.x) p.x
    let maxx := rest.foldl (fun m q => max m q.x) p.x
    let miny := rest.foldl (fun m q => min m q.y) p.y
    let maxy := rest.foldl (fun m q => max m q.y) p.y
    let dmax := max (maxx - minx) (maxy - miny)
    let m := 2 * dmax + 1
    let cx := (minx + maxx) / 2
    let cy := (miny + maxy) / 2
    (⟨cx - 2 * m, cy - m⟩, ⟨cx + 2 * m, cy - m⟩, ⟨cx, cy + 2 * m⟩)

/-- The triangle of a face, read off the vertex table. -/
def getTri (verts : List Point2) (f : Face) : Triangle2 :=
  ⟨verts.getD f.1 ⟨0, 0⟩, verts.getD f.2.1 ⟨0, 0⟩, verts.getD f.2.2 ⟨0, 0⟩⟩

/-- The three vertex indices of a face. -/
def faceVerts (f : Face) : List Nat := [f.1, f.2.1, f.2.2]

/-- Whether a face is incident to the vertex index `i`. -/
def hasVert (f : Face) (i : Nat) : Bool := i ∈ faceVerts f

/-- The third vertex of a face besides the edge `(u, v)`. -/
def thirdVert (f : Face) (u v : Nat) : Nat :=
  ((faceVerts f).filter (fun i => i ≠ u ∧ i ≠ v)).headD 0

/-- Modelled from the spec: the incircle test — `p` is strictly inside the
circumcircle of `(a, b, c)` iff the standard determinant (negated for
clockwise orientation) is positive beyond `ε`; on-circle points (within
`±ε`) count as not inside. -/
def inCircumcircle (a b c p : Point2) : Bool :=
  let o := cross2 (b - a) (c - a)
  let ax := a.x - p.x
  let ay := a.y - p.y
  let bx := b.x - p.x
  let by' := b.y - p.y
  let cx := c.x - p.x
  let cy := c.y - p.y
  let d := (ax * ax + ay * ay) * (bx * cy - by' * cx) -
    (bx * bx + by' * by') * (ax * cy - ay * cx) +
    (cx * cx + cy * cy) * (ax * by' - ay * bx)
  (0 < o ∧ eps < d) ∨ (o < 0 ∧ eps < -d)

/-- Modelled from the spec: the legalization loop — pop an edge `(u, v)`
with inserted apex `p`; when the two faces sharing the edge are
`(u, v, w)` and `(u, v, p)` and `p` is strictly inside the circumcircle of
the former, flip the edge and push the two outer edges of the flipped
quadrilateral; fuel bounds the loop. -/
def legalize (verts : List Point2) :
    Nat → List (Nat × Nat × Nat) → List Face → List Face
  | 0, _, faces => faces
  | _ + 1, [], faces => faces
  | fuel + 1, (u, v, p) :: stack, faces =>
    match faces.filter (fun f => hasVert f u ∧ hasVert f v) with
    | [f1, f2] =>
      let base :=
        if hasVert f2 p ∧ ¬ hasVert f1 p then some f1
        else if hasVert f1 p ∧ ¬ hasVert f2 p then some f2
        else none
      match base with
      | some fb =>
        let w := thirdVert fb u v
        if inCircumcircle (verts.getD u ⟨0, 0⟩) (verts.getD v ⟨0, 0⟩)
            (verts.getD w ⟨0, 0⟩) (verts.getD p ⟨0, 0⟩) then
          let faces' := ((faces.erase f1).erase f2) ++ [(u, w, p), (v, w, p)]
          legalize verts fuel ((u, w, p) :: (v, w, p) :: stack) faces'
        else legalize verts fuel stack faces
      | none => legalize verts fuel stack faces
    | _ => legalize verts fuel stack faces

/-- Whether `p` lies on the edge `(vi, vj)` within `ε` (used to decide
between the three-face and four-face split). -/
def onEdge (vi vj p : Point2) : Bool := |cross2 (vj - vi) (p - vi)| ≤ eps

/-- Modelled from the spec: insert one point — locate the face whose closed
region contains it, split that face into three (or, when the point lies on
a shared edge, the two incident faces into four), then legalize the
affected edges. -/
def insertPoint (verts : List Point2) (faces : List Face) (pi : Nat) :
    List Face :=
  let p := verts.getD pi ⟨0, 0⟩
  let fuel := (faces.length + 4) * (faces.length + 4)
  match faces.find? (fun f => contains_point2 (getTri verts f) p) with
  | none => faces
  | some f =>
    let i := f.1
    let j := f.2.1
    let k := f.2.2
    let vi := verts.getD i ⟨0, 0⟩
    let vj := verts.getD j ⟨0, 0⟩
    let vk := verts.getD k ⟨0, 0⟩
    let split4 := fun (u1 u2 u3 : Nat) =>
      match (faces.erase f).find? (fun g => hasVert g u1 ∧ hasVert g u2) with
      | some g =>
        let e := thirdVert g u1 u2
        let faces' := ((faces.erase f).erase g) ++
          [(pi, u2, u3), (pi, u3, u1), (pi, u2, e), (pi, e, u1)]
        legalize verts fuel
          [(u2, u3, pi), (u3, u1, pi), (u2, e, pi), (e, u1, pi)] faces'
      | none =>
        let faces' := faces.erase f ++ [(pi, u1, u2), (pi, u2, u3), (pi, u3, u1)]
        legalize verts fuel [(u1, u2, pi), (u2, u3, pi), (u3, u1, pi)] faces'
    if onEdge vi vj p then split4 i j k
    else if onEdge vj vk p then split4 j k i
    else if onEdge vk vi p then split4 k i j
    else
      let faces' := faces.erase f ++ [(pi, i, j), (pi, j, k), (pi, k, i)]
      legalize verts fuel [(i, j, pi), (j, k, pi), (k, i, pi)] faces'

/-- Modelled from the spec: the missing `triangulate_2d` — deduplicate the
input; with fewer than three points or an all-collinear set return the
deduplicated vertices and no faces; otherwise run incremental insertion
with edge-flip legalization inside a super-triangle, then drop every face
incident to a super-triangle vertex and remap indices.  (The model is the
deterministic `shuffle = false` order; the walking point location is
modelled as locating the containing face directly.) -/
def triangulate_2d (pts : List Point2) : Trimesh2 :=
  let q := dedup_points pts
  if q.length < 3 ∨ all_collinear q then ⟨q, []⟩
  else
    let st := superTri q
    let verts := [st.1, st.2.1, st.2.2] ++ q
    let faces := (List.range q.length).foldl
      (fun fs i => insertPoint verts fs (3 + i)) [(0, 1, 2)]
    let keep := faces.filter (fun f => 3 ≤ f.1 ∧ 3 ≤ f.2.1 ∧ 3 ≤ f.2.2)
    ⟨q, keep.map (fun f => (f.1 - 3, f.2.1 - 3, f.2.2 - 3))⟩

/-- C8: `triangulate_2d` never aborts (it is a total function); its vertex
list is the silently deduplicated input in every case; and when fewer than
three deduplicated points remain, or all points are collinear within `ε`,
the returned mesh has zero faces. -/
theorem c8_triangulate_degenerate (pts : List Point2) :
    (triangulate_2d pts).vertices = dedup_points pts ∧
    ((dedup_points pts).length < 3 ∨ all_collinear (dedup_points pts) = true →
      (triangulate_2d pts).faces = []) := by
  simp only [triangulate_2d]
  by_cases h : (dedup_points pts).length < 3 ∨
      all_collinear (dedup_points pts) = true
  · rw [if_pos h]
    exact ⟨rfl, fun _ => rfl⟩
  · rw [if_neg h]
    exact ⟨rfl, fun hcontra => absurd hcontra h⟩

/-- Witness for C8: a single-point input yields its deduplicated vertex
list and no faces. -/
theorem c8_witness :
    (triangulate_2d [(⟨0, 0⟩ : Point2)]).vertices = dedup_points [⟨0, 0⟩] ∧
    (triangulate_2d [(⟨0, 0⟩ : Point2)]).faces = [] :=
  ⟨(c8_triangulate_degenerate [⟨0, 0⟩]).1,
   (c8_triangulate_degenerate [⟨0, 0⟩]).2 (Or.inl (by norm_num [dedup_points]))⟩

end FastTrimesh
